import Mathlib

/-!
# Verification of the BX compiler middle-end

This development is a shallow embedding, in Lean 4, of the middle-end of the
BX compiler (source-AST to RTL lowering in `ast_rtl.cpp`, the RTL data model
of `rtl.h`, and the RTL-to-assembly translator of `rtl_asm.cpp`), together
with proofs about the embedded code.

Conventions of the embedding:

* C++ `int` / `int64_t` values (label ids, pseudo ids, offsets, immediates)
  are modelled as `Int`.
* `std::map` / `std::unordered_map` are modelled as association lists; the
  only operations the embedded code uses are `find` (modelled by
  `List.lookup`), `at` (lookup that fails when absent), and
  `insert`/`insert_or_assign` (modelled by consing, which gives the same
  `lookup` behaviour).
* Code that can throw (`add_instr`, `map::at`) lives in `Except String`;
  out-of-bounds `std::vector` indexing, which is undefined behaviour in the
  C++ source, is modelled as a failure of the same monad.
* Printing to `std::cout` (diagnostics) is modelled by returning the list of
  printed lines.
-/

namespace bx

namespace rtl

/-- RTL pseudo-register identity, `rtl.h`: `struct Pseudo { int id; }`. -/
abbrev Pseudo := Int

/-- `rtl.h`: `constexpr Pseudo discard_pr{-1};` -/
def discard_pr : Pseudo := -1

/-- RTL label identity, `rtl.h`: `struct Label { int id; }`. -/
abbrev Label := Int

/-- `Unop::Code` from `rtl.h`. -/
inductive UnopCode where
  | NEG | NOT
deriving DecidableEq, Repr

/-- `Binop::Code` from `rtl.h`. -/
inductive BinopCode where
  | ADD | SUB | MUL | DIV | REM | SAL | SAR | AND | OR | XOR
deriving DecidableEq, Repr

/-- `Ubranch::Code` from `rtl.h`. -/
inductive UbranchCode where
  | JZ | JNZ
deriving DecidableEq, Repr

/-- `Bbranch::Code` from `rtl.h`. -/
inductive BbranchCode where
  | JE | JL | JLE | JG | JGE | JNE | JNL | JNLE | JNG | JNGE
deriving DecidableEq, Repr

/-- The RTL instruction set of the extended `rtl.h` variant (the one with
`CopyMP`, `CopyPM`, `NewFrame`, `DelFrame`, `LoadParam`, `Push`, `Pop`),
which is the instruction set consumed by `ast_rtl.cpp`.

The `CopyAP` constructor, and the six-argument forms of `Load` and `Store`,
are *Modelled from the spec*: the header declaring them is not under `src/`
(the `rtl.h` in the repository has only four-argument `Load`/`Store` and no
`CopyAP`), so their operand lists are reconstructed from the spec's
instruction table ("`CopyAP base+off (via mreg), dst`",
"`Load base+off → dst via mreg`", "`Store src → base+off`") and from the
call sites in `ast_rtl.cpp` (`CopyAP::make(sym, offset, mreg, base, dest,
succ)`, `Load::make(sym, offset, dest, base, mreg, succ)`,
`Store::make(src, sym, base, mreg, offset, succ)`).  Machine registers are
the strings of `amd64.h` (`"%rax"`, ...). -/
inductive Instr where
  | Move (source : Int) (dest : Pseudo) (succ : Label)
  | Copy (src : Pseudo) (dest : Pseudo) (succ : Label)
  | CopyMP (src : String) (dest : Pseudo) (succ : Label)
  | CopyPM (src : Pseudo) (dest : String) (succ : Label)
  | CopyAP (src : String) (offset : Int) (mreg : String) (base : Pseudo)
      (dest : Pseudo) (succ : Label)
  | Load (src : String) (offset : Int) (dest : Pseudo) (base : Pseudo)
      (mreg : String) (succ : Label)
  | Store (src : Pseudo) (dest : String) (base : Pseudo) (mreg : String)
      (offset : Int) (succ : Label)
  | Unop (opcode : UnopCode) (arg : Pseudo) (succ : Label)
  | Binop (opcode : BinopCode) (src : Pseudo) (dest : Pseudo) (succ : Label)
  | Ubranch (opcode : UbranchCode) (arg : Pseudo) (succ : Label) (fail : Label)
  | Bbranch (opcode : BbranchCode) (arg1 : Pseudo) (arg2 : Pseudo)
      (succ : Label) (fail : Label)
  | Goto (succ : Label)
  | Call (func : String) (nargs : Int) (succ : Label)
  | Return
  | NewFrame (succ : Label) (size : Int)
  | DelFrame (succ : Label)
  | LoadParam (source : Int) (dest : Pseudo) (succ : Label)
  | Push (dest : Pseudo) (succ : Label)
  | Pop (dest : Pseudo) (succ : Label)
deriving DecidableEq, Repr

/-- The successor labels of an instruction (the CFG edges out of it):
each instruction's `succ` (and `fail` for the branches); `Return` has
none. -/
def Instr.succs : Instr → List Label
  | .Move _ _ succ => [succ]
  | .Copy _ _ succ => [succ]
  | .CopyMP _ _ succ => [succ]
  | .CopyPM _ _ succ => [succ]
  | .CopyAP _ _ _ _ _ succ => [succ]
  | .Load _ _ _ _ _ succ => [succ]
  | .Store _ _ _ _ _ succ => [succ]
  | .Unop _ _ succ => [succ]
  | .Binop _ _ _ succ => [succ]
  | .Ubranch _ _ succ fail => [succ, fail]
  | .Bbranch _ _ _ succ fail => [succ, fail]
  | .Goto succ => [succ]
  | .Call _ _ succ => [succ]
  | .Return => []
  | .NewFrame succ _ => [succ]
  | .DelFrame succ => [succ]
  | .LoadParam _ _ succ => [succ]
  | .Push _ succ => [succ]
  | .Pop _ succ => [succ]

/-- `rtl.h`: `struct Callable`.  The `LabelMap<InstrPtr> body` is modelled
as an association list from labels to instructions; `schedule` is the
vector of labels in installation order.  A freshly constructed
`Callable{name}` has empty `body` and `schedule` (`enter`, `leave`,
`output_reg` are default-initialised; the lowerer assigns them before
use). -/
structure Callable where
  name : String
  enter : Label := 0
  leave : Label := 0
  input_regs : List Pseudo := []
  output_reg : Pseudo := 0
  body : List (Label × Instr) := []
  schedule : List Label := []
deriving DecidableEq, Repr

/-- `Callable::Callable(std::string name)`. -/
def Callable.init (name : String) : Callable := { name := name }

/-- `Callable::add_instr`, with the mutation sequence made explicit:
the result is the state of the object when the call returns or throws,
paired with the error when it throws.  The source first checks
`body.find(lab) != body.end()` and throws `"repeated in-label"` *before*
touching `schedule` or `body`; otherwise it does `schedule.push_back(lab)`
and then `body.insert_or_assign(lab, instr)`. -/
def Callable.add_instr_run (cbl : Callable) (lab : Label) (instr : Instr) :
    Callable × Option String :=
  if (cbl.body.lookup lab).isSome then
    (cbl, some "repeated in-label")
  else
    ({ cbl with
        schedule := cbl.schedule ++ [lab]
        body := cbl.body ++ [(lab, instr)] }, none)

/-- `Callable::add_instr` as a fallible function: the updated callable on
success, the thrown error otherwise. -/
def Callable.add_instr (cbl : Callable) (lab : Label) (instr : Instr) :
    Except String Callable :=
  match cbl.add_instr_run lab instr with
  | (cbl', none) => .ok cbl'
  | (_, some e) => .error e

/-- A sequence of `add_instr` calls, failing as soon as one throws. -/
def Callable.add_instr_list (cbl : Callable) :
    List (Label × Instr) → Except String Callable
  | [] => .ok cbl
  | (lab, i) :: rest => do
      let cbl' ← cbl.add_instr lab i
      cbl'.add_instr_list rest

/-- The key list of a `body` map. -/
def bodyKeys (body : List (Label × Instr)) : List Label := body.map Prod.fst

end rtl

namespace amd64

/-- Machine register names from `amd64.h` (`namespace reg`): each is the
string `"%" #reg`. -/
def rax : String := "%rax"

def rbx : String := "%rbx"

def rcx : String := "%rcx"

def rdx : String := "%rdx"

def rbp : String := "%rbp"

def rsi : String := "%rsi"

def rdi : String := "%rdi"

def rsp : String := "%rsp"

def r8 : String := "%r8"

def r9 : String := "%r9"

def r12 : String := "%r12"

def r13 : String := "%r13"

def r14 : String := "%r14"

def r15 : String := "%r15"

def rip : String := "%rip"

/-- `amd64.h`: `struct Pseudo` — an assembly-level pseudo is either bound
to a named register or to a stack slot (`Pseudo{Reg}` / `Pseudo{int}`), or
unbound (`Pseudo{}`).  The numeric `id` drawn from `__last_pseudo_id` is
bookkeeping that neither printing of bound pseudos nor the translator
consults, so it is not modelled. -/
inductive APseudo where
  | reg (r : String)
  | slot (n : Int)
  | unbound
deriving DecidableEq, Repr

/-- The assembly lines constructible through the static methods of
`amd64.h`'s `struct Asm` (the constructor is private, so every `Asm` value
in the program is built by one of these).  Each constructor records the
operands the corresponding method stores in `use`/`def`/`jump_dests`. -/
inductive ALine where
  | directive (d : String)
  | set_label (label : String)
  | movq_imm (imm : Int) (dest : APseudo)
  | movq (src : APseudo) (dest : APseudo)
  | movabsq_imm (imm : Int) (dest : APseudo)
  | movabsq (src : APseudo) (dest : APseudo)
  | addq_imm (imm : Int) (dest : APseudo)
  | addq (src : APseudo) (dest : APseudo)
  | subq_imm (imm : Int) (dest : APseudo)
  | subq (src : APseudo) (dest : APseudo)
  | andq_imm (imm : Int) (dest : APseudo)
  | andq (src : APseudo) (dest : APseudo)
  | orq_imm (imm : Int) (dest : APseudo)
  | orq (src : APseudo) (dest : APseudo)
  | xorq_imm (imm : Int) (dest : APseudo)
  | xorq (src : APseudo) (dest : APseudo)
  | cqo
  | imulq (factor : APseudo)
  | idivq (divisor : APseudo)
  | cmpq (arg1 : APseudo) (arg2 : APseudo)
  | cmpq_imm (imm : Int) (arg : APseudo)
  | negq (arg : APseudo)
  | notq (arg : APseudo)
  | pushq (arg : APseudo)
  | popq (arg : APseudo)
  | sarq (dest : APseudo)
  | shrq (dest : APseudo)
  | salq (dest : APseudo)
  | jmp (destination : String)
  | je (destination : String)
  | jne (destination : String)
  | jl (destination : String)
  | jle (destination : String)
  | jg (destination : String)
  | jge (destination : String)
  | call (func : String)
  | ret
deriving DecidableEq, Repr

/-- The `repr_template` string each `Asm` static method stores, copied
from `amd64.h`. -/
def ALine.reprTemplate : ALine → String
  | .directive d => "\t" ++ d
  | .set_label label => label ++ ":"
  | .movq_imm imm _ => "\tmovq $" ++ toString imm ++ ", `d0"
  | .movq _ _ => "\tmovq `s0, `d0"
  | .movabsq_imm imm _ => "\tmovabsq $" ++ toString imm ++ ", `d0"
  | .movabsq _ _ => "\tmovabsq `s0, `d0"
  | .addq_imm imm _ => "\taddq $" ++ toString imm ++ ", `d0"
  | .addq _ _ => "\taddq `s0, `d0"
  | .subq_imm imm _ => "\tsubq $" ++ toString imm ++ ", `d0"
  | .subq _ _ => "\tsubq `s0, `d0"
  | .andq_imm imm _ => "\tandq $" ++ toString imm ++ ", `d0"
  | .andq _ _ => "\tandq `s0, `d0"
  | .orq_imm imm _ => "\torq $" ++ toString imm ++ ", `d0"
  | .orq _ _ => "\torq `s0, `d0"
  | .xorq_imm imm _ => "\txorq $" ++ toString imm ++ ", `d0"
  | .xorq _ _ => "\txorq `s0, `d0"
  | .cqo => "\tcqo"
  | .imulq _ => "imulq `s0"
  | .idivq _ => "idivq `s0"
  | .cmpq _ _ => "\tcmpq `s0, `s1"
  | .cmpq_imm imm _ => "cmpq $" ++ toString imm ++ ", `s0"
  | .negq _ => "\tnegq `s0"
  | .notq _ => "\tnotq `s0"
  | .pushq _ => "\tpushq `s0"
  | .popq _ => "\tpopq `d0"
  | .sarq _ => "\tsarq %cl, `d0"
  | .shrq _ => "\tshrq %cl, `d0"
  | .salq _ => "\tsalq %cl, `d0"
  | .jmp _ => "\tjmp `j0"
  | .je _ => "\tje `j0"
  | .jne _ => "\tjne `j0"
  | .jl _ => "\tjl `j0"
  | .jle _ => "\tjle `j0"
  | .jg _ => "\tjg `j0"
  | .jge _ => "\tjge `j0"
  | .call f => "\tcall " ++ f
  | .ret => "\tret"

/-- The `jump_dests` vector each `Asm` static method stores: only the
`BRANCH_OP` family records its destination. -/
def ALine.jumpDests : ALine → List String
  | .jmp d | .je d | .jne d | .jl d | .jle d | .jg d | .jge d => [d]
  | _ => []

end amd64

/-! ## The RTL-to-assembly translator of `rtl_asm.cpp`

`rtl_asm.cpp` compiles the *unextended* RTL variant (the `rtl.h` whose
`Call` carries an argument vector and a return pseudo and whose `Return`
carries a value pseudo).  Only the parts of `InstrCompiler` the claims are
about are embedded: the state, `lookup`, `label_translate`, `append_label`,
and the `Return` and `Goto` visitors. -/

namespace rtlasm

open amd64

/-- The state of `InstrCompiler`: the function name, the synthetic exit
label `".L" + funcname + ".exit"`, the map from RTL pseudo id to the
assembly pseudo allocated for it, and the list of emitted body lines. -/
structure ICState where
  funcname : String
  exit_label : String
  rmap : List (Int × APseudo)
  body : List ALine
deriving Repr

/-- `InstrCompiler::InstrCompiler(std::string funcname)`. -/
def ICState.init (funcname : String) : ICState :=
  { funcname := funcname
    exit_label := ".L" ++ funcname ++ ".exit"
    rmap := []
    body := [] }

/-- `InstrCompiler::lookup`: if the RTL pseudo has no assembly pseudo yet,
bind it to the stack slot `rmap.size() + 1` (the constructor
`amd64::Pseudo{int}` binds to a stack slot); then return the mapping. -/
def ICState.lookup (st : ICState) (r : Int) : APseudo × ICState :=
  match st.rmap.lookup r with
  | some p => (p, st)
  | none =>
      let p : APseudo := .slot ((st.rmap.length : Int) + 1)
      (p, { st with rmap := (r, p) :: st.rmap })

/-- `InstrCompiler::label_translate`. -/
def label_translate (funcname : String) (rtl_lab : Int) : String :=
  ".L" ++ funcname ++ "." ++ toString rtl_lab

/-- The C++ test `s.rfind(p, 0) == 0`: `s` starts with `p`. -/
def startsWith0 (s p : String) : Bool :=
  p.data.isPrefixOf s.data

/-- The elision guard of `InstrCompiler::append_label`: the previous line's
template begins with `"\tjmp"`, its `jump_dests` is non-empty, and its
first jump destination is the label being emitted. -/
def elideGuard (last : ALine) (label : String) : Bool :=
  startsWith0 last.reprTemplate "\tjmp" && last.jumpDests.head? == some label

/-- `InstrCompiler::append_label`: emit the local label for an RTL label,
first dropping the previous line when the elision guard fires. -/
def ICState.append_label (st : ICState) (rtl_lab : Int) : ICState :=
  let label := label_translate st.funcname rtl_lab
  let body :=
    match st.body.getLast? with
    | some last => if elideGuard last label then st.body.dropLast else st.body
    | none => st.body
  { st with body := body ++ [ALine.set_label label] }

/-- `InstrCompiler::visit(rtl::Return const &)`: look up the value pseudo,
move it into `%rax`, and jump to the exit label. -/
def ICState.visitReturn (st : ICState) (arg : Int) : ICState :=
  let (p, st) := st.lookup arg
  { st with body := st.body ++ [ALine.movq p (.reg rax), ALine.jmp st.exit_label] }

/-- `InstrCompiler::visit(rtl::Goto const &)`. -/
def ICState.visitGoto (st : ICState) (succ : Int) : ICState :=
  { st with body := st.body ++ [ALine.jmp (label_translate st.funcname succ)] }

end rtlasm

namespace source

/-- Source types, `ast.h`: `INT64`, `BOOL`, `UNKNOWN` (the return "type" of
procedures), `POINTER`, `LIST`. -/
inductive Ty where
  | INT64
  | BOOL
  | UNKNOWN
  | POINTER (typ : Ty)
  | LIST (typ : Ty) (length : Int)
deriving DecidableEq, Repr

/-- `dynamic_cast<source::INT64 *>` as a predicate on the modelled type. -/
def Ty.isINT64 : Ty → Bool
  | .INT64 => true
  | _ => false

/-- `dynamic_cast<source::BOOL *>`. -/
def Ty.isBOOL : Ty → Bool
  | .BOOL => true
  | _ => false

/-- `dynamic_cast<source::UNKNOWN *>`. -/
def Ty.isUNKNOWN : Ty → Bool
  | .UNKNOWN => true
  | _ => false

/-- `dynamic_cast<source::POINTER *>`. -/
def Ty.isPOINTER : Ty → Bool
  | .POINTER _ => true
  | _ => false

/-- `dynamic_cast<source::LIST *>`. -/
def Ty.isLIST : Ty → Bool
  | .LIST _ _ => true
  | _ => false

/-- Modelled from the spec: `int sizeOf(Type *)` is declared in `ast.h` but
its definition is not among the source files under `src/`.  The spec's
`sizeOf` section prescribes: `int64` and `bool` are 8 bytes, `pointer T` is
8 bytes, `list[T; N]` is `N · sizeOf(T)` bytes.  `UNKNOWN` never reaches
`sizeOf` in the embedded code paths; it is given 8 bytes arbitrarily. -/
def sizeOf : Ty → Int
  | .INT64 => 8
  | .BOOL => 8
  | .UNKNOWN => 8
  | .POINTER _ => 8
  | .LIST typ length => length * sizeOf typ

/-- `enum class Unop` from `ast.h`. -/
inductive SUnop where
  | Negate | BitNot | LogNot
deriving DecidableEq, Repr

/-- `enum class Binop` from `ast.h`. -/
inductive SBinop where
  | Add | Subtract | Multiply | Divide | Modulus
  | BitAnd | BitOr | BitXor | Lshift | Rshift
  | Lt | Leq | Gt | Geq | Eq | Neq
  | BoolAnd | BoolOr
deriving DecidableEq, Repr

mutual

/-- The source expression AST of `ast.h`.  `Variable` carries the type that
the type checker stored in its `meta->ty` (variable types are the only
`meta` data the lowerer reads that is not recomputable from the node
itself; see `exprTy` below for the others).  The `std::vector<ExprPtr>`
of call arguments is modelled by the mutually defined list type
`ExprList`. -/
inductive Expr where
  | Variable (label : String) (ty : Ty)
  | IntConstant (value : Int)
  | BoolConstant (value : Bool)
  | UnopApp (op : SUnop) (arg : Expr)
  | BinopApp (left_arg : Expr) (op : SBinop) (right_arg : Expr)
  | Call (func : String) (args : ExprList)
  | Alloc (size : Expr) (typ : Ty)
  | Null
  | Address (src : Expr)
  | ListElem (lst : Expr) (idx : Expr)
  | Deref (ptr : Expr)

/-- A vector of expressions (call arguments). -/
inductive ExprList where
  | nil
  | cons (head : Expr) (tail : ExprList)

end

/-- The number of expressions in an `ExprList`. -/
def ExprList.length : ExprList → Nat
  | .nil => 0
  | .cons _ tail => tail.length + 1

mutual

/-- The source statement AST of `ast.h`.  The `std::vector<StmtPtr>` of a
block is modelled by the mutually defined list type `StmtList`. -/
inductive Stmt where
  | Assign (left : Expr) (right : Expr)
  | Eval (expr : Expr)
  | Print (arg : Expr)
  | Block (body : StmtList)
  | IfElse (condition : Expr) (true_branch : Stmt) (false_branch : Stmt)
  | While (condition : Expr) (loop_body : Stmt)
  | Declare (var : String) (ty : Ty) (init : Expr)
  | Return (arg : Option Expr)

/-- A vector of statements (a block body). -/
inductive StmtList where
  | nil
  | cons (head : Stmt) (tail : StmtList)

end

/-- `struct Callable` of `ast.h` (the typed source callable). -/
structure SCallable where
  name : String
  args : List (String × Ty)
  body : Stmt
  return_ty : Ty

/-- `struct GlobalVar` of `ast.h`. -/
structure GlobalVar where
  name : String
  ty : Ty
  init : Expr

/-- `struct Program` of `ast.h`: tables of global variables and callables
(modelled as association lists; the C++ uses `unordered_map`, whose
iteration order is unspecified — the embedding iterates in list order). -/
structure Program where
  global_vars : List (String × GlobalVar)
  callables : List (String × SCallable)

/-- Two's-complement narrowing of an `int64_t` to a 32-bit `int`, performed
by `new int(value)` in `IntConstant::getArg`. -/
def wrap32 (v : Int) : Int :=
  (v + 2 ^ 31) % 2 ^ 32 - 2 ^ 31

/-- `Expr::getArg` from `ast.h`: `IntConstant` yields its (narrowed) value,
`BoolConstant` yields 1/0, every other node returns `NULL` (modelled as
`none`). -/
def getArg : Expr → Option Int
  | .IntConstant value => some (wrap32 value)
  | .BoolConstant value => some (if value then 1 else 0)
  | _ => none

/-- The type the checker stores in `meta->ty` of a checked expression,
recomputed from the node (mirroring `TypeChecker`'s assignments):
constants are `INT64`/`BOOL`, `LogNot` is `BOOL` and the other unops
`INT64`, binops by operator class, a call gets the callee's return type,
`alloc T` and `&e` get pointer types, `null` a pointer, `lst[i]` the list's
element type and `*p` the pointee type. -/
def exprTy (prog : Program) : Expr → Ty
  | .Variable _ ty => ty
  | .IntConstant _ => .INT64
  | .BoolConstant _ => .BOOL
  | .UnopApp op _ =>
      match op with
      | .LogNot => .BOOL
      | _ => .INT64
  | .BinopApp _ op _ =>
      match op with
      | .Add | .Subtract | .Multiply | .Divide | .Modulus
      | .BitAnd | .BitOr | .BitXor | .Lshift | .Rshift => .INT64
      | _ => .BOOL
  | .Call func _ =>
      match prog.callables.lookup func with
      | some cbl => cbl.return_ty
      | none => .UNKNOWN
  | .Alloc _ typ => .POINTER typ
  | .Null => .POINTER .UNKNOWN
  | .Address src => .POINTER (exprTy prog src)
  | .ListElem lst _ =>
      match exprTy prog lst with
      | .LIST typ _ => typ
      | _ => .UNKNOWN
  | .Deref ptr =>
      match exprTy prog ptr with
      | .POINTER typ => typ
      | _ => .UNKNOWN

end source

namespace rtl

/-- The mutable state of the lowering (`ast_rtl.cpp`): the process-global
counters `last_pseudo`/`last_label`, the `RtlGen` fields `in_label`,
`false_label`, `result`, `address`, the callable under construction, and
the per-generator tables `var_table`, `var_offset`, `gvar_table`,
`lastoffset`. -/
structure GenState where
  last_pseudo : Int
  last_label : Int
  in_label : Label
  false_label : Label
  result : Pseudo
  address : Pseudo
  rtl_cbl : Callable
  var_table : List (String × Pseudo)
  var_offset : List (String × Int)
  gvar_table : List (String × Pseudo)
  lastoffset : Int
deriving DecidableEq, Repr

/-- The state of a freshly constructed `RtlGen` for callable `name`, with
the process-global counters at `lp`/`ll`.  (`in_label` is a
default-initialised `Label` in the C++, never read before being assigned;
it is set to 0 here.) -/
def initGenState (name : String) (lp ll : Int) : GenState :=
  { last_pseudo := lp
    last_label := ll
    in_label := 0
    false_label := -1
    result := -1
    address := -1
    rtl_cbl := Callable.init name
    var_table := []
    var_offset := []
    gvar_table := []
    lastoffset := 0 }

/-- The lowering monad: state plus the exceptions thrown by `add_instr` and
by out-of-bounds accesses. -/
def GenM (α : Type) : Type := GenState → Except String (α × GenState)

instance : Monad GenM where
  pure a := fun s => .ok (a, s)
  bind m f := fun s =>
    match m s with
    | .ok (a, s') => f a s'
    | .error e => .error e

/-- `fresh_pseudo()` from `ast_rtl.cpp`. -/
def fresh_pseudo : GenM Pseudo := fun s =>
  .ok (s.last_pseudo, { s with last_pseudo := s.last_pseudo + 1 })

/-- `fresh_label()` from `ast_rtl.cpp`. -/
def fresh_label : GenM Label := fun s =>
  .ok (s.last_label, { s with last_label := s.last_label + 1 })

/-- Read the whole generator state (field reads of the C++ object). -/
def getState : GenM GenState := fun s => .ok (s, s)

/-- Write a field of the generator state. -/
def modifyG (f : GenState → GenState) : GenM Unit := fun s => .ok ((), f s)

/-- `in_label` read. -/
def getIn : GenM Label := fun s => .ok (s.in_label, s)

/-- `in_label = l`. -/
def setIn (l : Label) : GenM Unit := modifyG fun s => { s with in_label := l }

/-- `false_label` read. -/
def getFalse : GenM Label := fun s => .ok (s.false_label, s)

/-- `false_label = l`. -/
def setFalse (l : Label) : GenM Unit := modifyG fun s => { s with false_label := l }

/-- `result` read. -/
def getResult : GenM Pseudo := fun s => .ok (s.result, s)

/-- `result = p`. -/
def setResult (p : Pseudo) : GenM Unit := modifyG fun s => { s with result := p }

/-- `address` read. -/
def getAddress : GenM Pseudo := fun s => .ok (s.address, s)

/-- `address = p`. -/
def setAddress (p : Pseudo) : GenM Unit := modifyG fun s => { s with address := p }

/-- `lastoffset += n`. -/
def addOffset (n : Int) : GenM Unit := modifyG fun s => { s with lastoffset := s.lastoffset + n }

/-- Throwing (`throw std::runtime_error` / UB modelled as failure). -/
def throwG {α : Type} (msg : String) : GenM α := fun _ => .error msg

/-- `rtl_cbl.add_instr(lab, instr)` inside the generator. -/
def addInstrG (lab : Label) (i : Instr) : GenM Unit := fun s =>
  match s.rtl_cbl.add_instr lab i with
  | .ok c => .ok ((), { s with rtl_cbl := c })
  | .error e => .error e

/-- `RtlGen::add_sequential`: allocate a fresh label, install the built
instruction at `in_label`, move `in_label` to the fresh label. -/
def add_sequential (use_label : Label → Instr) : GenM Unit := do
  let next_label ← fresh_label
  let inl ← getIn
  addInstrG inl (use_label next_label)
  setIn next_label

/-- `RtlGen::intify`: materialise a boolean result as 1/0 moves installed
at the true and false labels, both flowing to a fresh join label. -/
def intify : GenM Unit := do
  let r ← fresh_pseudo
  setResult r
  addOffset 8
  let next_label ← fresh_label
  let inl ← getIn
  addInstrG inl (.Move 1 r next_label)
  let fl ← getFalse
  addInstrG fl (.Move 0 r next_label)
  setIn next_label

/-- `RtlGen::copy_of_result`. -/
def copy_of_result : GenM Pseudo := do
  let reg ← fresh_pseudo
  addOffset 8
  let r ← getResult
  add_sequential (fun next => .Copy r reg next)
  pure reg

/-- `std::vector` indexing `xs[i]`.  An index outside `[0, size)` is
undefined behaviour in the C++ source; the embedding makes it a failure of
the monad. -/
def vecGet {α : Type} (xs : List α) (i : Int) : GenM α :=
  if 0 ≤ i then
    match xs.get? i.toNat with
    | some x => pure x
    | none => throwG "vector index out of bounds"
  else throwG "vector index out of bounds"

/-- `std::map::at` / `std::unordered_map::at`: throws when absent. -/
def mapAt {β : Type} (m : List (String × β)) (k : String) : GenM β :=
  match m.lookup k with
  | some v => pure v
  | none => throwG "map::at: key not found"

/-- The iteration worker of `forLoop`: run `f i`, `f (i+1)`, ... for the
given number of iterations. -/
def forLoopAux (f : Int → GenM Unit) : Nat → Int → GenM Unit
  | 0, _ => pure ()
  | n + 1, i => do
      f i
      forLoopAux f n (i + 1)

/-- A C-style `for (int i = lo; i < hi; i++)` loop: the body runs once for
each `i` in `[lo, hi)`, i.e. `(hi - lo).toNat` times. -/
def forLoop (lo hi : Int) (f : Int → GenM Unit) : GenM Unit :=
  forLoopAux f (hi - lo).toNat lo

/-- A range-`for` over a list, for side effects. -/
def forListM {α : Type} (xs : List α) (f : α → GenM Unit) : GenM Unit :=
  match xs with
  | [] => pure ()
  | x :: rest => do
      f x
      forListM rest f

/-- A loop over a list collecting one value per element. -/
def mapListM {α β : Type} (xs : List α) (f : α → GenM β) : GenM (List β) :=
  match xs with
  | [] => pure []
  | x :: rest => do
      let y ← f x
      let ys ← mapListM rest f
      pure (y :: ys)

/-- The lowering context: the (read-only) source program and the
process-global `global_var_init` map filled in by `getGlobals`. -/
structure Ctx where
  source_prog : source.Program
  global_var_init : List (String × Int)

/-- The argument registers of the calling convention, as in `ast_rtl.cpp`:
`{rdi, rsi, rdx, rcx, r8, r9}`. -/
def regargs : List String :=
  [amd64.rdi, amd64.rsi, amd64.rdx, amd64.rcx, amd64.r8, amd64.r9]

/-- The callee-saved registers, as in `ast_rtl.cpp`:
`{rbx, rbp, r12, r13, r14, r15}`. -/
def callee_saved : List String :=
  [amd64.rbx, amd64.rbp, amd64.r12, amd64.r13, amd64.r14, amd64.r15]

/-- `RtlGen::get_pseudo(v, offset)`: globals get a pseudo loaded (once) from
the global's symbol; locals get a fresh pseudo and a frame offset on first
use. -/
def get_pseudo (ctx : Ctx) (v : String) (offset : Int) : GenM Pseudo := do
  if (ctx.global_var_init.lookup v).isSome then do
    let s ← getState
    let _ ← (if (s.gvar_table.lookup v).isNone then do
      let ps ← fresh_pseudo
      addOffset offset
      add_sequential (fun next => .Load v 0 ps discard_pr amd64.rip next)
      modifyG fun st => { st with gvar_table := (v, ps) :: st.gvar_table }
    else pure ())
    let s2 ← getState
    mapAt s2.gvar_table v
  else do
    let s ← getState
    let _ ← (if (s.var_table.lookup v).isNone then do
      let p ← fresh_pseudo
      modifyG fun st => { st with var_table := (v, p) :: st.var_table }
      modifyG fun st => { st with var_offset := (v, st.lastoffset) :: st.var_offset }
      addOffset offset
    else pure ())
    let s2 ← getState
    mapAt s2.var_table v

/-- `RtlGen::visit(source::IntConstant const &)`. -/
def visitIntConstant (value : Int) : GenM Unit := do
  let r ← fresh_pseudo
  setResult r
  addOffset 8
  add_sequential (fun next_lab => .Move value r next_lab)

/-- `RtlGen::visit(source::BoolConstant const &)`: `true` allocates a fresh
(unwritten) `false_label`; `false` makes the current `in_label` the false
branch and moves `in_label` to a fresh (unwritten) label.  No instruction
is emitted. -/
def visitBoolConstant (value : Bool) : GenM Unit := do
  if value then do
    let f ← fresh_label
    setFalse f
  else do
    let inl ← getIn
    setFalse inl
    let f ← fresh_label
    setIn f

/-- `RtlGen::visit(source::Variable const &)`: the variable's pseudo
becomes the result; boolean variables additionally get an immediate
`Ubranch JNZ` splitting control into true/false branches. -/
def visitVariable (ctx : Ctx) (label : String) (ty : source.Ty) : GenM Unit := do
  let p ← get_pseudo ctx label (source.sizeOf ty)
  setResult p
  if ty.isBOOL then do
    let f ← fresh_label
    setFalse f
    let r ← getResult
    add_sequential (fun next => .Ubranch .JNZ r next f)
  else pure ()

/-- The `switch` of `RtlGen::visitIntBinop`: the arithmetic/bitwise/shift
operators and their RTL opcodes; `none` is the `default: return` case. -/
def intBinopCode : source.SBinop → Option BinopCode
  | .Add => some .ADD
  | .Subtract => some .SUB
  | .Multiply => some .MUL
  | .Divide => some .DIV
  | .Modulus => some .REM
  | .BitAnd => some .AND
  | .BitOr => some .OR
  | .BitXor => some .XOR
  | .Lshift => some .SAL
  | .Rshift => some .SAR
  | _ => none

/-- The `switch` of `RtlGen::visitIneqop`. -/
def ineqCode : source.SBinop → Option BbranchCode
  | .Lt => some .JL
  | .Leq => some .JLE
  | .Gt => some .JG
  | .Geq => some .JGE
  | _ => none

mutual

/-- `RtlGen`'s `ExprVisitor` dispatch: `expr->accept(*this)`.

The `BinopApp` case transcribes `RtlGen::visit(source::BinopApp const &)`,
which tries the four helper visitors in order ("at most one of them will
work"); each of the four blocks below is the body of the corresponding
helper (`visitIntBinop`, `visitBoolBinop`, `visitIneqop`, `visitEqop`),
whose irrelevant-operator path is its `return` /
`default: return` case. -/
def visitExpr (ctx : Ctx) : source.Expr → GenM Unit
  | .Variable label ty => visitVariable ctx label ty
  | .IntConstant value => visitIntConstant value
  | .BoolConstant value => visitBoolConstant value
  | .UnopApp op arg => do
      visitExpr ctx arg
      match op with
      | .BitNot => do
          let reg ← copy_of_result
          setResult reg
          add_sequential (fun next => .Unop .NOT reg next)
      | .Negate => do
          let reg ← copy_of_result
          setResult reg
          add_sequential (fun next => .Unop .NEG reg next)
      | .LogNot => do
          let l ← getFalse
          let inl ← getIn
          setFalse inl
          setIn l
  | .BinopApp left_arg op right_arg => do
      -- `RtlGen::visitIntBinop`
      let _ ← (match intBinopCode op with
       | none => pure ()
       | some rtl_op => do
           visitExpr ctx left_arg
           let left_result ← copy_of_result
           visitExpr ctx right_arg
           let right_result ← getResult
           add_sequential (fun next => .Binop rtl_op right_result left_result next)
           setResult left_result)
      -- `RtlGen::visitBoolBinop`
      let _ ← (if op ≠ .BoolAnd ∧ op ≠ .BoolOr then pure ()
       else do
         visitExpr ctx left_arg
         let s1 ← getState
         let left_true_label := s1.in_label
         let left_false_label := s1.false_label
         setIn (if op = .BoolAnd then left_true_label else left_false_label)
         visitExpr ctx right_arg
         let s2 ← getState
         let right_true_label := s2.in_label
         let right_false_label := s2.false_label
         if op = .BoolAnd then do
           addInstrG right_false_label (.Goto left_false_label)
           setFalse left_false_label
         else do
           addInstrG right_true_label (.Goto left_true_label)
           setIn left_true_label)
      -- `RtlGen::visitIneqop`
      let _ ← (match ineqCode op with
       | none => pure ()
       | some rtl_op => do
           visitExpr ctx left_arg
           let left_result ← getResult
           visitExpr ctx right_arg
           let right_result ← getResult
           let f ← fresh_label
           setFalse f
           add_sequential (fun next =>
             .Bbranch rtl_op left_result right_result next f))
      -- `RtlGen::visitEqop`
      (if op ≠ .Eq ∧ op ≠ .Neq then pure ()
       else do
         visitExpr ctx left_arg
         let _ ← (if (source.exprTy ctx.source_prog left_arg).isBOOL then intify
                  else pure ())
         let left_result ← getResult
         visitExpr ctx right_arg
         let _ ← (if (source.exprTy ctx.source_prog right_arg).isBOOL then intify
                  else pure ())
         let f ← fresh_label
         setFalse f
         let rres ← getResult
         add_sequential (fun next =>
           .Bbranch (if op = .Eq then .JE else .JNE) left_result rres next f))
  | .Call func args => do
      let argPs ← visitExprList ctx args
      let nArgs : Int := argPs.length
      let _ ← (if ¬ (nArgs > 6) then
        forLoop 0 nArgs (fun i => do
          let a ← vecGet argPs i
          let ra ← vecGet regargs i
          add_sequential (fun next => .CopyPM a ra next))
      else do
        forLoop 0 6 (fun i => do
          let a ← vecGet argPs i
          let ra ← vecGet regargs i
          add_sequential (fun next => .CopyPM a ra next))
        forLoop 0 (nArgs - 5) (fun i => do
          let a ← vecGet argPs (nArgs - i)
          add_sequential (fun next => .Push a next)))
      let cbl ← (match ctx.source_prog.callables.lookup func with
                 | some c => pure c
                 | none => throwG "map::at: key not found")
      let _ ← (if cbl.return_ty.isUNKNOWN then setResult discard_pr
      else do
        let p ← fresh_pseudo
        setResult p
        addOffset 8)
      add_sequential (fun next => .Call func nArgs next)
      if ¬ cbl.return_ty.isUNKNOWN then do
        let r ← getResult
        add_sequential (fun next => .CopyMP amd64.rax r next)
      else pure ()
  | .Alloc size typ => do
      visitIntConstant (source.sizeOf typ)
      let scale ← getResult
      visitExpr ctx size
      let length ← getResult
      add_sequential (fun next => .Binop .MUL scale length next)
      add_sequential (fun next => .CopyPM length amd64.rdi next)
      add_sequential (fun next => .Call "malloc" 1 next)
      let ps ← fresh_pseudo
      addOffset 8
      add_sequential (fun next => .CopyMP amd64.rax ps next)
      setResult ps
  | .Null => visitIntConstant 0
  | .Address src => do
      visitAddress ctx src
      let a ← getAddress
      setResult a
  | .ListElem lst idx => do
      visitAddress ctx lst
      let lstaddress ← getAddress
      visitExpr ctx idx
      let idxp ← getResult
      match source.exprTy ctx.source_prog lst with
      | .LIST typ _ => do
          visitIntConstant (source.sizeOf typ)
          let scale ← getResult
          add_sequential (fun next => .Binop .MUL scale idxp next)
          add_sequential (fun next => .Binop .SUB idxp lstaddress next)
          let ps ← fresh_pseudo
          addOffset 8
          add_sequential (fun next => .Load "" 0 ps lstaddress amd64.rip next)
          setResult ps
      | _ => throwG "null dereference"
  | .Deref ptr => do
      visitAddress ctx ptr
      let a ← getAddress
      let ps ← fresh_pseudo
      addOffset 8
      add_sequential (fun next => .Load "" 0 ps a amd64.rip next)
      setResult ps

/-- The argument-evaluation loop of `RtlGen::visit(source::Call const &)`:
`e->accept(*this); args.push_back(result);` for each argument. -/
def visitExprList (ctx : Ctx) : source.ExprList → GenM (List Pseudo)
  | .nil => pure []
  | .cons e rest => do
      visitExpr ctx e
      let r ← getResult
      let rs ← visitExprList ctx rest
      pure (r :: rs)

/-- `RtlGen`'s `Addressor` dispatch: `expr->acceptAddress(*this)`.  The
`NOT_ADDRESSABLE` nodes' `acceptAddress` does nothing. -/
def visitAddress (ctx : Ctx) : source.Expr → GenM Unit
  | .Variable label _ => do
      let _ ← (if (ctx.global_var_init.lookup label).isSome then do
        let ps ← fresh_pseudo
        addOffset 8
        add_sequential (fun next => .CopyAP label (-1) amd64.rip discard_pr ps next)
        setAddress ps
      else pure ())
      let s ← getState
      match s.var_offset.lookup label with
      | some off => do
          let ps ← fresh_pseudo
          addOffset 8
          add_sequential (fun next => .CopyAP "" (-off) amd64.rbp discard_pr ps next)
          setAddress ps
      | none => pure ()
  | .ListElem lst idx => do
      visitAddress ctx lst
      let tmpaddr ← getAddress
      visitExpr ctx idx
      let tmpidx ← getResult
      match source.exprTy ctx.source_prog lst with
      | .LIST typ _ => do
          visitIntConstant (source.sizeOf typ)
          let r ← getResult
          add_sequential (fun next => .Binop .MUL r tmpidx next)
          add_sequential (fun next => .Binop .SUB tmpidx tmpaddr next)
          let ps ← fresh_pseudo
          addOffset 8
          add_sequential (fun next => .CopyAP "" 0 amd64.rip tmpaddr ps next)
          setAddress ps
      | _ => throwG "null dereference"
  | .Deref ptr => do
      visitAddress ctx ptr
      let a ← getAddress
      let ps ← fresh_pseudo
      addOffset 8
      add_sequential (fun next => .Load "" 0 ps a amd64.rbp next)
      setAddress ps
  | _ => pure ()

end

/-- `RtlGen::addMemset(offset, size)`: compute the frame address, load the
size and zero constants, place the three `memset` arguments in
`rdi`/`rsi`/`rdx`, and call `memset`. -/
def addMemset (offset size : Int) : GenM Unit := do
  let poffset ← fresh_pseudo
  addOffset 8
  add_sequential (fun next => .CopyAP "" (-offset) amd64.rbp discard_pr poffset next)
  visitIntConstant size
  let psize ← getResult
  visitIntConstant 0
  let pzero ← getResult
  add_sequential (fun next => .CopyPM poffset amd64.rdi next)
  add_sequential (fun next => .CopyPM pzero amd64.rsi next)
  add_sequential (fun next => .CopyPM psize amd64.rdx next)
  add_sequential (fun next => .Call "memset" 3 next)

mutual

/-- `RtlGen`'s `StmtVisitor` dispatch: `stmt->accept(*this)`.  The
`Declare` case mirrors the four sequential `dynamic_cast` blocks of the
source (exactly one fires for a given type); the debug
`std::cout << pr << std::endl` in the `LIST` block goes to stdout, not to
a compiler output, and is not modelled. -/
def visitStmt (ctx : Ctx) : source.Stmt → GenM Unit
  | .Declare var ty init => do
      let _ ← (if ty.isBOOL then do
        let pr ← get_pseudo ctx var 8
        visitExpr ctx init
        intify
        let r ← getResult
        add_sequential (fun next => .Copy r pr next)
      else pure ())
      let _ ← (if ty.isINT64 then do
        let pr ← get_pseudo ctx var 8
        visitExpr ctx init
        let r ← getResult
        add_sequential (fun next => .Copy r pr next)
      else pure ())
      let _ ← (if ty.isPOINTER then do
        let pr ← get_pseudo ctx var 8
        visitExpr ctx init
        let r ← getResult
        add_sequential (fun next => .Copy r pr next)
      else pure ())
      if ty.isLIST then do
        let pr ← get_pseudo ctx var (source.sizeOf ty)
        let s ← getState
        let off ← (match s.var_offset.lookup var with
                   | some o => pure o
                   | none => throwG "map::at: key not found")
        addMemset off (source.sizeOf ty)
        visitExpr ctx init
        let r ← getResult
        add_sequential (fun next => .Copy r pr next)
      else pure ()
  | .Assign left right => do
      visitAddress ctx left
      let source_reg ← getAddress
      visitExpr ctx right
      let _ ← (if (source.exprTy ctx.source_prog right).isBOOL then intify
               else pure ())
      let r ← getResult
      add_sequential (fun next => .Store r "" source_reg amd64.rbp 0 next)
  | .Eval expr => do
      visitExpr ctx expr
      if (source.exprTy ctx.source_prog expr).isBOOL then intify else pure ()
  | .Print arg => do
      visitExpr ctx arg
      let _ ← (if (source.exprTy ctx.source_prog arg).isBOOL then intify
               else pure ())
      let func :=
        if (source.exprTy ctx.source_prog arg).isINT64 then "bx_print_int"
        else "bx_print_bool"
      let r ← getResult
      add_sequential (fun next => .CopyPM r amd64.rdi next)
      add_sequential (fun next => .Call func 1 next)
  | .Block body => visitStmtList ctx body
  | .IfElse condition true_branch false_branch => do
      visitExpr ctx condition
      let s ← getState
      let then_label := s.in_label
      let else_label := s.false_label
      let next_label ← fresh_label
      setIn then_label
      visitStmt ctx true_branch
      let inl ← getIn
      addInstrG inl (.Goto next_label)
      setIn else_label
      visitStmt ctx false_branch
      let inl2 ← getIn
      addInstrG inl2 (.Goto next_label)
      setIn next_label
  | .While condition loop_body => do
      let while_enter_label ← getIn
      visitExpr ctx condition
      let condition_exit_label ← getFalse
      visitStmt ctx loop_body
      let inl ← getIn
      addInstrG inl (.Goto while_enter_label)
      setIn condition_exit_label
  | .Return arg => do
      let _ ← (match arg with
      | some a => do
          visitExpr ctx a
          let _ ← (if (source.exprTy ctx.source_prog a).isBOOL then intify
                   else pure ())
          let s ← getState
          if s.rtl_cbl.output_reg ≠ discard_pr then do
            let r ← getResult
            add_sequential (fun next => .Copy r s.rtl_cbl.output_reg next)
            let s2 ← getState
            add_sequential (fun next => .CopyPM s2.rtl_cbl.output_reg amd64.rax next)
          else pure ()
      | none => pure ())
      let s3 ← getState
      add_sequential (fun _ => .Goto s3.rtl_cbl.leave)

/-- The statement loop of `RtlGen::visit(source::Block const &)`. -/
def visitStmtList (ctx : Ctx) : source.StmtList → GenM Unit
  | .nil => pure ()
  | .cons st rest => do
      visitStmt ctx st
      visitStmtList ctx rest

end

/-- `rtl_cbl.input_regs.push_back(reg)`. -/
def pushInputReg (p : Pseudo) : GenM Unit :=
  modifyG fun s =>
    { s with rtl_cbl := { s.rtl_cbl with input_regs := s.rtl_cbl.input_regs ++ [p] } }

/-- `rtl_cbl.output_reg = p`. -/
def setOutputReg (p : Pseudo) : GenM Unit :=
  modifyG fun s => { s with rtl_cbl := { s.rtl_cbl with output_reg := p } }

/-- `rtl_cbl.enter = l`. -/
def setEnter (l : Label) : GenM Unit :=
  modifyG fun s => { s with rtl_cbl := { s.rtl_cbl with enter := l } }

/-- `rtl_cbl.leave = l`. -/
def setLeave (l : Label) : GenM Unit :=
  modifyG fun s => { s with rtl_cbl := { s.rtl_cbl with leave := l } }

/-- The body of the `RtlGen` constructor (`RtlGen::RtlGen`): fetch the
source callable, allocate input/output pseudos, reserve `enter`/`leave` and
the `NewFrame` placeholder, save the callee-saved registers, read the
parameters (registers for the first six, `LoadParam` beyond — the loop
bound `i < nArgs + 1` is the source's), lower the body, move the return
value to `rax`, splice `leave`, restore callee-saved registers, back-patch
`NewFrame`, and emit `DelFrame` and `Return`.  (The local
`pseudoCounter` of the source is dead bookkeeping and not modelled.) -/
def rtlGenBody (ctx : Ctx) (name : String) : GenM Unit := do
  let cbl ← (match ctx.source_prog.callables.lookup name with
             | some c => pure c
             | none => throwG "map::at: key not found")
  forListM cbl.args (fun param => do
    let reg ← get_pseudo ctx param.1 (source.sizeOf param.2)
    pushInputReg reg)
  let _ ← (if cbl.return_ty.isUNKNOWN then setOutputReg discard_pr
  else do
    let p ← fresh_pseudo
    setOutputReg p
    addOffset 8)
  let enter ← fresh_label
  setEnter enter
  addOffset 8
  let leave ← fresh_label
  setLeave leave
  addOffset 8
  setIn enter
  let freshL ← fresh_label
  addOffset 8
  let tmpin ← getIn
  setIn freshL
  let saved_locs ← mapListM callee_saved (fun reg => do
    let ps ← fresh_pseudo
    addOffset 8
    add_sequential (fun next => .CopyMP reg ps next)
    pure ps)
  let nArgs : Int := cbl.args.length
  let stackParams := nArgs > 6
  let _ ← (if ¬ stackParams then
    forLoop 0 nArgs (fun i => do
      let s ← getState
      let ir ← vecGet s.rtl_cbl.input_regs i
      let ra ← vecGet regargs i
      add_sequential (fun next => .CopyMP ra ir next))
  else do
    forLoop 0 6 (fun i => do
      let s ← getState
      let ir ← vecGet s.rtl_cbl.input_regs i
      let ra ← vecGet regargs i
      add_sequential (fun next => .CopyMP ra ir next))
    forLoop 6 (nArgs + 1) (fun i => do
      let s ← getState
      let ir ← vecGet s.rtl_cbl.input_regs i
      add_sequential (fun next => .LoadParam (i - 5) ir next)))
  visitStmt ctx cbl.body
  let _ ← (if ¬ cbl.return_ty.isUNKNOWN then do
    let s ← getState
    add_sequential (fun next => .CopyPM s.rtl_cbl.output_reg amd64.rax next)
  else pure ())
  let s1 ← getState
  addInstrG s1.rtl_cbl.leave (.Goto s1.in_label)
  forLoop 0 6 (fun i => do
    let sl ← vecGet saved_locs i
    let cs ← vecGet callee_saved i
    add_sequential (fun next => .CopyPM sl cs next))
  let s2 ← getState
  addInstrG tmpin (.NewFrame freshL s2.lastoffset)
  add_sequential (fun next => .DelFrame next)
  add_sequential (fun _ => .Return)

/-- Constructing an `RtlGen` for `name` (with the process-global counters
at `lp`/`ll`) and `deliver()`ing its callable; the final counter values are
returned alongside. -/
def rtlGenRun (ctx : Ctx) (name : String) (lp ll : Int) :
    Except String (Callable × Int × Int) :=
  match rtlGenBody ctx name (initGenState name lp ll) with
  | .ok ((), s) => .ok (s.rtl_cbl, s.last_pseudo, s.last_label)
  | .error e => .error e

/-- The loop of `rtl::transform`: one `RtlGen` per source callable, in
table order, all drawing from the same process-global counters. -/
def transformList (ctx : Ctx) :
    List (String × source.SCallable) → Int → Int →
    Except String (List Callable × Int × Int)
  | [], lp, ll => .ok ([], lp, ll)
  | (nm, _) :: rest, lp, ll =>
      match rtlGenRun ctx nm lp ll with
      | .ok (cb, lp1, ll1) =>
          match transformList ctx rest lp1 ll1 with
          | .ok (cbs, lp2, ll2) => .ok (cb :: cbs, lp2, ll2)
          | .error e => .error e
      | .error e => .error e

/-- `rtl::transform(src_prog)`, with the process-global counter state made
explicit: it enters at the current values of `last_pseudo`/`last_label`
(which are *not* reset by the source) and leaves at their final values. -/
def transform (prog : source.Program) (gvinit : List (String × Int))
    (lp ll : Int) : Except String (List Callable × Int × Int) :=
  transformList ⟨prog, gvinit⟩ prog.callables lp ll

/-! ### Global-variable layout (`rtl::getGlobals`) -/

/-- The process-global state written by `getGlobals`: `global_var_init`,
`global_var_offset` and `globaloffset` from `ast_rtl.cpp`. -/
structure GlobalsState where
  global_var_init : List (String × Int)
  global_var_offset : List (String × Int)
  globaloffset : Int
deriving DecidableEq, Repr

/-- `std::map::insert(pair)`: inserts only when the key is absent. -/
def mapInsert {β : Type} (m : List (String × β)) (k : String) (v : β) :
    List (String × β) :=
  if (m.lookup k).isSome then m else (k, v) :: m

/-- The shared block of the three type cases in `getGlobals`: when
`getArg()` is `NULL` print `"Bad variable initialization for <name>"` (to
stdout) and do nothing else; otherwise insert the initializer and the
offset and advance `globaloffset` by the type's size. -/
def getGlobalsInit (gs : GlobalsState) (diags : List String) (name : String)
    (gv : source.GlobalVar) : GlobalsState × List String :=
  match source.getArg gv.init with
  | none => (gs, diags ++ ["Bad variable initialization for " ++ name])
  | some init =>
      ({ global_var_init := mapInsert gs.global_var_init name init
         global_var_offset := mapInsert gs.global_var_offset name gs.globaloffset
         globaloffset := gs.globaloffset + source.sizeOf gv.ty }, diags)

/-- One iteration of the `getGlobals` loop: the three sequential
`dynamic_cast` blocks (INT64-or-BOOL, POINTER, LIST); a type matching none
of them is skipped without a diagnostic. -/
def getGlobalsOne (gs : GlobalsState) (diags : List String) (name : String)
    (gv : source.GlobalVar) : GlobalsState × List String :=
  let r1 := if gv.ty.isINT64 || gv.ty.isBOOL then getGlobalsInit gs diags name gv
            else (gs, diags)
  let r2 := if gv.ty.isPOINTER then getGlobalsInit r1.1 r1.2 name gv else r1
  if gv.ty.isLIST then getGlobalsInit r2.1 r2.2 name gv else r2

/-- The loop of `rtl::getGlobals`. -/
def getGlobalsList (gvs : List (String × source.GlobalVar)) (gs : GlobalsState)
    (diags : List String) : GlobalsState × List String :=
  match gvs with
  | [] => (gs, diags)
  | (nm, gv) :: rest =>
      let r := getGlobalsOne gs diags nm gv
      getGlobalsList rest r.1 r.2

/-- `rtl::getGlobals(src_prog)`: walk the globals, fill the process-global
maps, and return `global_var_init`; the diagnostics printed to stdout are
returned alongside.  It never aborts. -/
def getGlobals (gvs : List (String × source.GlobalVar)) (gs : GlobalsState) :
    GlobalsState × List String :=
  getGlobalsList gvs gs []

/-! ### Printing of RTL (`rtl.cpp` pretty-printers) and the `.rtl` file -/

/-- `operator<<(ostream, Pseudo)`: `##` for `discard_pr`, else `#id`. -/
def printPseudo (p : Pseudo) : String :=
  if p = discard_pr then "##" else "#" ++ toString p

/-- `operator<<(ostream, Label)`: `L<id>`. -/
def printLabel (l : Label) : String := "L" ++ toString l

/-- `Unop::code_map`. -/
def unopName : UnopCode → String
  | .NOT => "not"
  | .NEG => "neg"

/-- `Binop::code_map`. -/
def binopName : BinopCode → String
  | .ADD => "add" | .SUB => "sub" | .MUL => "mul" | .DIV => "div"
  | .REM => "rem" | .SAL => "sal" | .SAR => "sar" | .AND => "and"
  | .OR => "or" | .XOR => "xor"

/-- `Ubranch::code_map`. -/
def ubranchName : UbranchCode → String
  | .JZ => "jz"
  | .JNZ => "jnz"

/-- `Bbranch::code_map`. -/
def bbranchName : BbranchCode → String
  | .JE => "je" | .JNE => "jne" | .JL => "jl" | .JNL => "jnl"
  | .JLE => "jle" | .JNLE => "jnle" | .JG => "jg" | .JNG => "jng"
  | .JGE => "jge" | .JNGE => "jnge"

/-- The `print` methods of the RTL instructions (`rtl.h`).  For `CopyAP`
and the six-operand `Load`/`Store`, whose printing code is not under
`src/`, the four-operand `Load`/`Store` format of the repository's `rtl.h`
is used and `CopyAP` follows the same `"copy"` convention as the other
copies; no claim in this development depends on those three formats. -/
def printInstr : Instr → String
  | .Move source dest succ =>
      "move " ++ toString source ++ ", " ++ printPseudo dest ++ "  --> " ++ printLabel succ
  | .Copy src dest succ =>
      "copy " ++ printPseudo src ++ ", " ++ printPseudo dest ++ "  --> " ++ printLabel succ
  | .CopyMP src dest succ =>
      "copy " ++ src ++ ", " ++ printPseudo dest ++ "  --> " ++ printLabel succ
  | .CopyPM src dest succ =>
      "copy " ++ printPseudo src ++ ", " ++ dest ++ "  --> " ++ printLabel succ
  | .CopyAP src offset _ _ dest succ =>
      "copy " ++ src ++ "+" ++ toString offset ++ ", " ++ printPseudo dest ++
        "  --> " ++ printLabel succ
  | .Load src offset dest _ _ succ =>
      "load " ++ src ++ "+" ++ toString offset ++ ", " ++ printPseudo dest ++
        "  --> " ++ printLabel succ
  | .Store src dest _ _ offset succ =>
      "store " ++ printPseudo src ++ ", " ++ dest ++ "+" ++ toString offset ++
        "  --> " ++ printLabel succ
  | .Unop opcode arg succ =>
      "unop " ++ unopName opcode ++ ", " ++ printPseudo arg ++ "  --> " ++ printLabel succ
  | .Binop opcode src dest succ =>
      "binop " ++ binopName opcode ++ ", " ++ printPseudo src ++ ", " ++
        printPseudo dest ++ "  --> " ++ printLabel succ
  | .Ubranch opcode arg succ fail =>
      "ubranch " ++ ubranchName opcode ++ ", " ++ printPseudo arg ++ "  --> " ++
        printLabel succ ++ ", " ++ printLabel fail
  | .Bbranch opcode arg1 arg2 succ fail =>
      "bbranch " ++ bbranchName opcode ++ ", " ++ printPseudo arg1 ++ ", " ++
        printPseudo arg2 ++ "  --> " ++ printLabel succ ++ ", " ++ printLabel fail
  | .Goto succ => "goto  --> " ++ printLabel succ
  | .Call func nargs succ =>
      "call " ++ func ++ "(" ++ toString nargs ++ ")" ++ "  --> " ++ printLabel succ
  | .Return => "return "
  | .NewFrame succ size =>
      "newframe " ++ toString size ++ " --> " ++ printLabel succ
  | .DelFrame succ => "delframe  --> " ++ printLabel succ
  | .LoadParam source dest succ =>
      "load_param " ++ toString source ++ ", " ++ printPseudo dest ++
        "  --> " ++ printLabel succ
  | .Push dest succ => "push " ++ printPseudo dest ++ "  --> " ++ printLabel succ
  | .Pop dest succ => "pop " ++ printPseudo dest ++ "  --> " ++ printLabel succ

/-- The schedule lines of `operator<<(ostream, Callable)`:
`label: instruction` per scheduled label (`body.at(in_lab)`). -/
def printSchedule (body : List (Label × Instr)) : List Label → String
  | [] => ""
  | lab :: rest =>
      printLabel lab ++ ": " ++
        (match body.lookup lab with
         | some i => printInstr i
         | none => "") ++ "\n" ++ printSchedule body rest

/-- `operator<<(ostream, Callable)` from `rtl.cpp`. -/
def printCallable (cbl : Callable) : String :=
  "CALLABLE \"" ++ cbl.name ++ "\":" ++
  "\ninput(s): " ++ String.join (cbl.input_regs.map (fun r => printPseudo r ++ " ")) ++
  "\noutput: " ++ printPseudo cbl.output_reg ++
  "\nenter: " ++ printLabel cbl.enter ++ "\nleave: " ++ printLabel cbl.leave ++
  "\n----\n" ++ printSchedule cbl.body cbl.schedule ++
  "END CALLABLE\n\n"

/-! ### The middle-end pipeline of `main.cpp`

`main.cpp` runs `rtl::getGlobals` then `rtl::transform` and writes the
`.rtl` file: one `name = init` line per entry of the returned
`global_var_init` (a `std::map`, iterated in key order) followed by each
callable (`rtl_out << rtl_cbl << '\n'`).  (The `.s`-emission block of
`main.cpp` is commented out in the source, so `.rtl` is the output the
pipeline actually produces.) -/

/-- The process-global mutable state the pipeline carries across
compilations: `last_pseudo`, `last_label`, and the `getGlobals` maps.
None of it is reset between compilations in the source. -/
structure PipeState where
  last_pseudo : Int
  last_label : Int
  globals : GlobalsState
deriving DecidableEq, Repr

/-- The state of a freshly started process. -/
def pipeInit : PipeState :=
  { last_pseudo := 0, last_label := 0, globals := ⟨[], [], 0⟩ }

/-- Insertion into a key-sorted association list. -/
def insertSortedGvar (g : String × Int) :
    List (String × Int) → List (String × Int)
  | [] => [g]
  | h :: t => if g.1 ≤ h.1 then g :: h :: t else h :: insertSortedGvar g t

/-- Sorting an association list by key (insertion sort). -/
def sortGvars : List (String × Int) → List (String × Int)
  | [] => []
  | h :: t => insertSortedGvar h (sortGvars t)

/-- The global lines of the `.rtl` file: `std::map` iterates its entries
in key order, hence the sort. -/
def printGvars (gvars : List (String × Int)) : String :=
  String.join ((sortGvars gvars).map
    (fun g => g.1 ++ " = " ++ toString g.2 ++ "\n"))

/-- The content of the `.rtl` file for a list of lowered callables. -/
def rtlFileContent (gvars : List (String × Int)) (cbls : List Callable) : String :=
  printGvars gvars ++ String.join (cbls.map (fun c => printCallable c ++ "\n"))

/-- One run of the middle-end pipeline (`main.cpp` lines 41-54): run
`getGlobals`, then `transform`, and produce the `.rtl` text.  Returns the
text, the diagnostics printed to stdout, and the process-global state as
the run leaves it. -/
def compileRtl (prog : source.Program) (ps : PipeState) :
    Except String (String × List String × PipeState) :=
  let gr := getGlobals prog.global_vars ps.globals
  match transform prog gr.1.global_var_init ps.last_pseudo ps.last_label with
  | .ok (cbls, lp, ll) =>
      .ok (rtlFileContent gr.1.global_var_init cbls, gr.2,
           { last_pseudo := lp, last_label := ll, globals := gr.1 })
  | .error e => .error e

/-! ### Concrete instances used by the claim-level theorems -/

/-- A start state for lowering a single expression: the cursor label `0`
has already been allocated (label counter at 1), as inside a running
`RtlGen`. -/
def exprStart : GenState := initGenState "main" 0 1

/-- A source program with a seven-parameter procedure `f`. -/
def sevenProg : source.Program :=
  ⟨[], [("f", ⟨"f", [("a1", .INT64), ("a2", .INT64), ("a3", .INT64),
                     ("a4", .INT64), ("a5", .INT64), ("a6", .INT64),
                     ("a7", .INT64)], .Block .nil, .UNKNOWN⟩)]⟩

/-- The source call expression `f(1,2,3,4,5,6,7)`. -/
def callSeven : source.Expr :=
  .Call "f" (.cons (.IntConstant 1) (.cons (.IntConstant 2)
    (.cons (.IntConstant 3) (.cons (.IntConstant 4) (.cons (.IntConstant 5)
    (.cons (.IntConstant 6) (.cons (.IntConstant 7) .nil)))))))

/-- A source program whose procedure `g` has eight parameters. -/
def arityEightProg : source.Program :=
  ⟨[], [("g", ⟨"g", [("a1", .INT64), ("a2", .INT64), ("a3", .INT64),
                     ("a4", .INT64), ("a5", .INT64), ("a6", .INT64),
                     ("a7", .INT64), ("a8", .INT64)], .Block .nil, .UNKNOWN⟩)]⟩

/-- The source callable `proc main() {}`. -/
def mainSrc : source.SCallable := ⟨"main", [], .Block .nil, .UNKNOWN⟩

/-- The program `proc main() {}`. -/
def emptyMainProg : source.Program := ⟨[], [("main", mainSrc)]⟩

/-- `proc main() {}` plus a global variable `x` whose initializer is the
expression `y` — not a constant literal, so `getArg` returns `NULL`. -/
def badGlobalProg : source.Program :=
  ⟨[("x", ⟨"x", .INT64, .Variable "y" .INT64⟩)], [("main", mainSrc)]⟩

/-- The RTL callable that lowering `main` of `emptyMainProg` produces when
the process-global counters start at 0 (a fresh process). -/
def mainCbl1 : Callable :=
  { name := "main", enter := 0, leave := 1, input_regs := [], output_reg := -1,
    body := [(2, .CopyMP "%rbx" 0 3), (3, .CopyMP "%rbp" 1 4),
             (4, .CopyMP "%r12" 2 5), (5, .CopyMP "%r13" 3 6),
             (6, .CopyMP "%r14" 4 7), (7, .CopyMP "%r15" 5 8),
             (1, .Goto 8),
             (8, .CopyPM 0 "%rbx" 9), (9, .CopyPM 1 "%rbp" 10),
             (10, .CopyPM 2 "%r12" 11), (11, .CopyPM 3 "%r13" 12),
             (12, .CopyPM 4 "%r14" 13), (13, .CopyPM 5 "%r15" 14),
             (0, .NewFrame 2 72), (14, .DelFrame 15), (15, .Return)],
    schedule := [2, 3, 4, 5, 6, 7, 1, 8, 9, 10, 11, 12, 13, 0, 14, 15] }

/-- The RTL callable the *second* lowering of `main` in the same process
produces: the counters resume at (6, 17), so every label and pseudo id is
shifted. -/
def mainCbl2 : Callable :=
  { name := "main", enter := 17, leave := 18, input_regs := [], output_reg := -1,
    body := [(19, .CopyMP "%rbx" 6 20), (20, .CopyMP "%rbp" 7 21),
             (21, .CopyMP "%r12" 8 22), (22, .CopyMP "%r13" 9 23),
             (23, .CopyMP "%r14" 10 24), (24, .CopyMP "%r15" 11 25),
             (18, .Goto 25),
             (25, .CopyPM 6 "%rbx" 26), (26, .CopyPM 7 "%rbp" 27),
             (27, .CopyPM 8 "%r12" 28), (28, .CopyPM 9 "%r13" 29),
             (29, .CopyPM 10 "%r14" 30), (30, .CopyPM 11 "%r15" 31),
             (17, .NewFrame 19 72), (31, .DelFrame 32), (32, .Return)],
    schedule := [19, 20, 21, 22, 23, 24, 18, 25, 26, 27, 28, 29, 30, 17, 31, 32] }

/-! ### Predicates used by the verification -/

/-- A monotone generator step: on success, the process-global counters
never decrease and the `enter` label of the callable under construction is
untouched. -/
def MonoStep {α : Type} (m : GenM α) : Prop :=
  ∀ (s : GenState) (a : α) (s1 : GenState), m s = .ok (a, s1) →
    s.last_label ≤ s1.last_label ∧ s.last_pseudo ≤ s1.last_pseudo ∧
      s1.rtl_cbl.enter = s.rtl_cbl.enter

/-! ### The control-flow discipline of expression lowering

The following predicates describe how one lowering step grows the body of
the callable under construction; they are the invariants needed to reason
about reachability in the generated control-flow graph. -/

/-- `l` is a label allocated during the step from `s` to `s'`. -/
structure window (s s' : GenState) (l : Label) : Prop where
  lo : s.last_label ≤ l
  hi : l < s'.last_label

/-- The standing well-formedness of a generator state: all installed
labels and all successor labels are below the label counter, and the
current `in_label` is below the counter and not yet installed. -/
structure GoodState (s : GenState) : Prop where
  keys_lt : ∀ l ∈ bodyKeys s.rtl_cbl.body, l < s.last_label
  succ_lt : ∀ p ∈ s.rtl_cbl.body, ∀ t ∈ Instr.succs p.2, t < s.last_label
  in_lt : s.in_label < s.last_label
  in_free : s.in_label ∉ bodyKeys s.rtl_cbl.body

/-- What a run lowering an *int-valued* expression from `s` to `s'` does to
the callable: it appends instructions installed at the old `in_label` or at
labels allocated during the run, whose successors stay inside the run
(the entry, the new `in_label`, or an allocated label), and it leaves a
well-formed state whose `in_label` is the old one or an allocated label. -/
structure IntOut (s s' : GenState) : Prop where
  lab_le : s.last_label ≤ s'.last_label
  good : GoodState s'
  in_out : s'.in_label = s.in_label ∨ window s s' s'.in_label
  grow : ∃ nw, s'.rtl_cbl.body = s.rtl_cbl.body ++ nw ∧
    (∀ p ∈ nw, p.1 = s.in_label ∨ window s s' p.1) ∧
    (∀ p ∈ nw, ∀ t ∈ Instr.succs p.2,
      t = s.in_label ∨ t = s'.in_label ∨ window s s' t)

/-- What a run lowering a *bool-valued* expression from `s` to `s'` does:
as `IntOut`, except that control leaves the generated code through the two
labels `s'.in_label` (true) and `s'.false_label` (false), which are
distinct, both un-installed or entry/allocated, and both legal successor
targets. -/
structure BoolOut (s s' : GenState) : Prop where
  lab_le : s.last_label ≤ s'.last_label
  good : GoodState s'
  in_out : s'.in_label = s.in_label ∨ window s s' s'.in_label
  false_out : s'.false_label = s.in_label ∨ window s s' s'.false_label
  ne_out : s'.in_label ≠ s'.false_label
  false_free : s'.false_label ∉ bodyKeys s'.rtl_cbl.body
  grow : ∃ nw, s'.rtl_cbl.body = s.rtl_cbl.body ++ nw ∧
    (∀ p ∈ nw, p.1 = s.in_label ∨ window s s' p.1) ∧
    (∀ p ∈ nw, ∀ t ∈ Instr.succs p.2,
      t = s.in_label ∨ t = s'.in_label ∨ t = s'.false_label ∨ window s s' t)

/-- Reachability in a body map along successor edges, for paths that never
touch the label `avoid`: `Reach body avoid a l` holds when some path of
successor edges from `a` to `l` visits only labels different from
`avoid`. -/
inductive Reach (body : List (Label × Instr)) (avoid : Label) :
    Label → Label → Prop where
  | refl (l : Label) (h : l ≠ avoid) : Reach body avoid l l
  | step {a b c : Label} (hab : Reach body avoid a b) (i : Instr)
      (hi : body.lookup b = some i) (hc : c ∈ Instr.succs i)
      (hcavoid : c ≠ avoid) : Reach body avoid a c

/-- The int-valued expressions of the boolean fragment: integer constants,
`int64` variables, arithmetic unops, and binops carrying an RTL arithmetic
opcode (the operators `visitIntBinop` accepts). -/
inductive wtI (prog : source.Program) : source.Expr → Prop where
  | intconst (v : Int) : wtI prog (.IntConstant v)
  | var (x : String) : wtI prog (.Variable x .INT64)
  | neg {e : source.Expr} : wtI prog e → wtI prog (.UnopApp .Negate e)
  | bitnot {e : source.Expr} : wtI prog e → wtI prog (.UnopApp .BitNot e)
  | binop {e1 e2 : source.Expr} {op : source.SBinop} {c : BinopCode} :
      intBinopCode op = some c → wtI prog e1 → wtI prog e2 →
      wtI prog (.BinopApp e1 op e2)

/-- The bool-valued expressions of the boolean fragment: boolean constants
and variables, `!`, `&&`, `||`, the four inequalities on int operands, and
`==`/`!=` on int operands. -/
inductive wtB (prog : source.Program) : source.Expr → Prop where
  | boolconst (b : Bool) : wtB prog (.BoolConstant b)
  | var (x : String) : wtB prog (.Variable x .BOOL)
  | lognot {e : source.Expr} : wtB prog e → wtB prog (.UnopApp .LogNot e)
  | booland {e1 e2 : source.Expr} : wtB prog e1 → wtB prog e2 →
      wtB prog (.BinopApp e1 .BoolAnd e2)
  | boolor {e1 e2 : source.Expr} : wtB prog e1 → wtB prog e2 →
      wtB prog (.BinopApp e1 .BoolOr e2)
  | ineq {e1 e2 : source.Expr} {op : source.SBinop} {c : BbranchCode} :
      ineqCode op = some c → wtI prog e1 → wtI prog e2 →
      wtB prog (.BinopApp e1 op e2)
  | eqop {e1 e2 : source.Expr} {op : source.SBinop} :
      (op = source.SBinop.Eq ∨ op = source.SBinop.Neq) →
      wtI prog e1 → wtI prog e2 → wtB prog (.BinopApp e1 op e2)

/-- A computation every successful run of which from a well-formed state
realises the int-mode contract. -/
def IntStep {α : Type} (m : GenM α) : Prop :=
  ∀ (s : GenState) (a : α) (s' : GenState), GoodState s → m s = .ok (a, s') →
    IntOut s s'

/-- A computation every successful run of which from a well-formed state
realises the bool-mode contract. -/
def BoolStep (m : GenM Unit) : Prop :=
  ∀ (s s' : GenState), GoodState s → m s = .ok ((), s') → BoolOut s s'

/-- An empty lowering context (no globals, no callables), for concrete
runs of the expression lowerer. -/
def ctx0 : Ctx := ⟨⟨[], []⟩, []⟩

/-- The concrete boolean disjunction `true || false`. -/
def demoOr : source.Expr :=
  .BinopApp (.BoolConstant true) .BoolOr (.BoolConstant false)

end rtl

/-! ## Theorems -/

namespace rtl

/-- Unfolding of `bind` in the lowering monad. -/
theorem bindG_apply {α β : Type} (m : GenM α) (f : α → GenM β) (s : GenState) :
    (m >>= f) s =
      match m s with
      | .ok (a, s1) => f a s1
      | .error e => .error e := rfl

/-- Unfolding of `pure` in the lowering monad. -/
theorem pureG_apply {α : Type} (a : α) (s : GenState) :
    (pure a : GenM α) s = .ok (a, s) := rfl

/-- An `ok` result of a bind splits into `ok` results of the pieces. -/
theorem bindG_ok {α β : Type} {m : GenM α} {f : α → GenM β} {s : GenState}
    {r : β × GenState} (h : (m >>= f) s = .ok r) :
    ∃ a s1, m s = .ok (a, s1) ∧ f a s1 = .ok r := by
  rw [bindG_apply] at h
  match hm : m s with
  | .ok (a, s1) => rw [hm] at h; exact ⟨a, s1, rfl, h⟩
  | .error e => rw [hm] at h; cases h

/-- `add_instr` inside the monad succeeds exactly on fresh labels, and then
appends to both `body` and `schedule`. -/
theorem addInstrG_ok {lab : Label} {i : Instr} {s : GenState} {r : Unit × GenState}
    (h : addInstrG lab i s = .ok r) :
    (s.rtl_cbl.body.lookup lab) = none ∧
      r.2 = { s with rtl_cbl := { s.rtl_cbl with
                schedule := s.rtl_cbl.schedule ++ [lab]
                body := s.rtl_cbl.body ++ [(lab, i)] } } := by
  unfold addInstrG Callable.add_instr Callable.add_instr_run at h
  match hval : s.rtl_cbl.body.lookup lab with
  | some j => rw [hval] at h; simp at h
  | none =>
      rw [hval] at h
      simp only [Option.isSome_none, Bool.false_eq_true, if_false, if_neg] at h
      refine ⟨rfl, ?_⟩
      cases h
      rfl

end rtl

namespace rtl

/-- `lookup` finds a key exactly when it is in the key list. -/
theorem lookup_isSome_iff (body : List (Label × Instr)) (lab : Label) :
    (body.lookup lab).isSome ↔ lab ∈ bodyKeys body := by
  induction body with
  | nil => simp [List.lookup, bodyKeys]
  | cons p rest ih =>
      cases p with
      | mk l i =>
          by_cases h : lab = l
          · subst h
            simp [List.lookup, bodyKeys]
          · simp only [List.lookup, bodyKeys, List.map_cons, List.mem_cons]
            have hbeq : (lab == l) = false := by
              simp [h]
            rw [hbeq]
            simp only [bodyKeys, List.map_cons, List.mem_cons] at ih ⊢
            rw [ih]
            simp [h]

/-- `lookup` misses a key exactly when it is not in the key list. -/
theorem lookup_eq_none_iff (body : List (Label × Instr)) (lab : Label) :
    body.lookup lab = none ↔ lab ∉ bodyKeys body := by
  rw [← lookup_isSome_iff]
  cases body.lookup lab <;> simp

/-- `lookup` on an appended map tries the left part first. -/
theorem lookup_append (l1 l2 : List (Label × Instr)) (lab : Label) :
    (l1 ++ l2).lookup lab =
      match l1.lookup lab with
      | some i => some i
      | none => l2.lookup lab := by
  induction l1 with
  | nil => simp [List.lookup]
  | cons p rest ih =>
      cases p with
      | mk l i =>
          by_cases h : lab = l
          · subst h
            simp [List.lookup]
          · have hbeq : (lab == l) = false := by simp [h]
            simp only [List.cons_append, List.lookup, hbeq]
            exact ih

/-- The invariant behind C7: `schedule` is exactly the key list of `body`,
with no duplicates. -/
def ScheduleInv (cbl : Callable) : Prop :=
  cbl.schedule = bodyKeys cbl.body ∧ cbl.schedule.Nodup

/-- A successful `add_instr` preserves `ScheduleInv`. -/
theorem add_instr_preserves_inv {cbl cbl' : Callable} {lab : Label} {i : Instr}
    (hinv : ScheduleInv cbl) (h : cbl.add_instr lab i = .ok cbl') :
    ScheduleInv cbl' := by
  unfold Callable.add_instr Callable.add_instr_run at h
  match hval : cbl.body.lookup lab with
  | some j => rw [hval] at h; simp at h
  | none =>
    rw [hval] at h
    simp only [Option.isSome_none, Bool.false_eq_true, if_false, if_neg] at h
    obtain ⟨hsched, hnodup⟩ := hinv
    have hnotin : lab ∉ bodyKeys cbl.body := by
      rw [← lookup_isSome_iff, hval]
      simp
    cases h
    constructor
    · simp [bodyKeys, hsched]
    · rw [List.nodup_append]
      refine ⟨hnodup, List.nodup_singleton lab, ?_⟩
      intro a ha hb
      simp only [List.mem_singleton] at hb
      subst hb
      exact hnotin (hsched ▸ ha)

/-- `add_instr_list` preserves `ScheduleInv`. -/
theorem add_instr_list_preserves_inv :
    ∀ (ops : List (Label × Instr)) (cbl cbl' : Callable),
      ScheduleInv cbl → cbl.add_instr_list ops = .ok cbl' → ScheduleInv cbl'
  | [], cbl, cbl', hinv, h => by
      unfold Callable.add_instr_list at h
      cases h
      exact hinv
  | (lab, i) :: rest, cbl, cbl', hinv, h => by
      unfold Callable.add_instr_list at h
      match hstep : cbl.add_instr lab i with
      | .ok cbl1 =>
          rw [hstep] at h
          exact add_instr_list_preserves_inv rest cbl1 cbl'
            (add_instr_preserves_inv hinv hstep) h
      | .error e => rw [hstep] at h; cases h

/-- C7: for every `Callable` built from a fresh `Callable{name}` by any
sequence of successful `add_instr` calls, the `schedule` vector is a
permutation of the key set of `body`: every label occurs at most once in
`schedule` and at most once as a `body` key, and a label is in `schedule`
iff it is a `body` key. -/
theorem add_instr_seq_schedule_matches_body
    (name : String) (ops : List (Label × Instr)) (cbl : Callable)
    (h : (Callable.init name).add_instr_list ops = .ok cbl) :
    cbl.schedule.Nodup ∧ (bodyKeys cbl.body).Nodup ∧
      (∀ lab : Label, lab ∈ cbl.schedule ↔ lab ∈ bodyKeys cbl.body) := by
  have hinv : ScheduleInv cbl :=
    add_instr_list_preserves_inv ops (Callable.init name) cbl
      ⟨rfl, List.nodup_nil⟩ h
  obtain ⟨hsched, hnodup⟩ := hinv
  exact ⟨hnodup, hsched ▸ hnodup, fun lab => by rw [hsched]⟩

/-- Witness for C7 at a concrete two-instruction sequence. -/
theorem add_instr_seq_schedule_matches_body_witness :
    ∃ cbl : Callable,
      (Callable.init "f").add_instr_list [(0, .Goto 1), (1, .Return)] = .ok cbl ∧
      (cbl.schedule.Nodup ∧ (bodyKeys cbl.body).Nodup ∧
        (∀ lab : Label, lab ∈ cbl.schedule ↔ lab ∈ bodyKeys cbl.body)) := by
  refine ⟨{ name := "f", schedule := [0, 1],
            body := [(0, .Goto 1), (1, .Return)] }, ?h, ?_⟩
  case h => rfl
  exact add_instr_seq_schedule_matches_body "f" [(0, .Goto 1), (1, .Return)] _ rfl

/-- C8: `add_instr(lab, instr)` throws the `"repeated in-label"` error iff
`lab` is already a key of `body`; on a fresh label it succeeds and installs
exactly that one instruction at that label (appending `lab` to the
schedule). -/
theorem add_instr_error_iff_duplicate (cbl : Callable) (lab : Label) (i : Instr) :
    (cbl.add_instr lab i = .error "repeated in-label" ↔ lab ∈ bodyKeys cbl.body) ∧
    (lab ∉ bodyKeys cbl.body →
      cbl.add_instr lab i =
        .ok { cbl with schedule := cbl.schedule ++ [lab]
                       body := cbl.body ++ [(lab, i)] }) := by
  unfold Callable.add_instr Callable.add_instr_run
  match hval : cbl.body.lookup lab with
  | some j =>
      have hmem : lab ∈ bodyKeys cbl.body := by
        rw [← lookup_isSome_iff, hval]; rfl
      simp [hval, hmem]
  | none =>
      have hmem : lab ∉ bodyKeys cbl.body := by
        rw [← lookup_isSome_iff, hval]; simp
      simp [hval, hmem]

/-- Witness for C8: a duplicate installation throws; a fresh one succeeds. -/
theorem add_instr_error_iff_duplicate_witness :
    ({ name := "f", body := [(0, Instr.Return)], schedule := [0] } :
        Callable).add_instr 0 (.Goto 1) = .error "repeated in-label" ∧
    (Callable.init "f").add_instr 0 (.Goto 1) =
      .ok { Callable.init "f" with schedule := [0], body := [(0, .Goto 1)] } := by
  constructor
  · exact (add_instr_error_iff_duplicate
      { name := "f", body := [(0, Instr.Return)], schedule := [0] } 0 (.Goto 1)).1.mpr
      (by simp [bodyKeys])
  · exact (add_instr_error_iff_duplicate (Callable.init "f") 0 (.Goto 1)).2
      (by simp [bodyKeys, Callable.init])

/-- C10: `add_instr` is atomic on failure: when the call throws, the
object's `body` and `schedule` are exactly as they were before the call
(the duplicate check precedes every mutation). -/
theorem add_instr_atomic_on_failure (cbl : Callable) (lab : Label) (i : Instr)
    (e : String) (h : (cbl.add_instr_run lab i).2 = some e) :
    (cbl.add_instr_run lab i).1 = cbl := by
  unfold Callable.add_instr_run at h ⊢
  match hval : cbl.body.lookup lab with
  | some j => simp [hval]
  | none => rw [hval] at h; simp at h

/-- Witness for C10 at a concrete duplicate installation. -/
theorem add_instr_atomic_on_failure_witness :
    (({ name := "f", body := [(0, Instr.Return)], schedule := [0] } :
        Callable).add_instr_run 0 (.Goto 1)).1 =
      { name := "f", body := [(0, Instr.Return)], schedule := [0] } :=
  add_instr_atomic_on_failure
    { name := "f", body := [(0, Instr.Return)], schedule := [0] } 0 (.Goto 1)
    "repeated in-label" rfl

end rtl

namespace rtlasm

open amd64

/-- Among all constructible assembly lines, the elision guard of
`append_label` holds exactly for `jmp` lines whose (sole) destination is
the label being emitted: every non-branch line has empty `jump_dests`, and
of the branch lines only `jmp`'s template begins with `"\tjmp"`. -/
theorem elideGuard_iff (last : ALine) (label : String) :
    elideGuard last label = true ↔ last = .jmp label := by
  cases last <;>
    simp only [elideGuard, ALine.jumpDests, ALine.reprTemplate, List.head?,
      Bool.and_eq_true, beq_iff_eq, Option.some.injEq, reduceCtorEq,
      iff_false, not_and, ALine.jmp.injEq] <;>
    try simp
  all_goals
    first
    | (intro h; exact absurd h (by decide))
    | (intro _; decide)

/-- C6: emitting a label removes the immediately preceding assembly line
iff that line is a `jmp` whose (sole) jump destination equals the label
being emitted; in every other case — in particular for a `jmp` whose
destination differs from the label — the body is kept intact, so no such
`jmp` is ever removed. -/
theorem append_label_elision_iff (st : ICState) (rtl_lab : Int) :
    (st.append_label rtl_lab).body =
      (if st.body.getLast? =
            some (ALine.jmp (label_translate st.funcname rtl_lab))
       then st.body.dropLast
       else st.body) ++
        [ALine.set_label (label_translate st.funcname rtl_lab)] := by
  unfold ICState.append_label
  match hlast : st.body.getLast? with
  | none =>
      simp only [hlast]
      have : st.body = [] := by
        cases hb : st.body with
        | nil => rfl
        | cons x xs => rw [hb] at hlast; simp [List.getLast?_concat] at hlast
      simp [this]
  | some last =>
      simp only [hlast]
      by_cases hj : last = ALine.jmp (label_translate st.funcname rtl_lab)
      · subst hj
        rw [if_pos ((elideGuard_iff _ _).mpr rfl), if_pos rfl]
      · rw [if_neg (fun hg => hj ((elideGuard_iff _ _).mp hg)),
           if_neg (fun hg => hj (by injection hg))]

/-- The amended C9: translating an RTL `Return` appends exactly two lines,
a `movq` of the (looked-up) value pseudo into `%rax` followed by an
unconditional `jmp` to the function's synthetic exit label — the `Return`
of `rtl_asm.cpp` carries its value operand. -/
theorem return_emits_movq_rax_then_jmp (st : ICState) (arg : Int) :
    (st.visitReturn arg).body =
      st.body ++ [ALine.movq (st.lookup arg).1 (.reg rax),
                  ALine.jmp st.exit_label] ∧
    (st.visitReturn arg).exit_label = st.exit_label := by
  unfold ICState.visitReturn ICState.lookup
  match hval : st.rmap.lookup arg with
  | some p => simp [hval]
  | none => simp [hval]

/-- Counterexample to C9 as stated: for a fresh compiler for function
`"f"` translating `Return #0`, the emitted lines are a `movq` into `%rax`
followed by the `jmp`, not the single `jmp` the claim asserts. -/
theorem return_emits_two_lines_counterexample :
    ((ICState.init "f").visitReturn 0).body =
      [ALine.movq (.slot 1) (.reg rax), ALine.jmp ".Lf.exit"] ∧
    ((ICState.init "f").visitReturn 0).body ≠ [ALine.jmp ".Lf.exit"] := by
  constructor
  · rfl
  · decide

end rtlasm

namespace rtl

set_option maxHeartbeats 4000000 in
/-- C1 (the code slip at its failing input): lowering the seven-argument
call `f(1,...,7)` aborts with an out-of-bounds vector access.  The push
loop of `visit(source::Call const &)` runs `i = 0 .. nArgs-6` and pushes
`args[nArgs - i]`, so its first iteration reads `args[7]` — one past the
end of the seven-element argument vector — instead of emitting the
`nArgs - 6` pushes of arguments 7..n (right-to-left) that the claim
describes. -/
theorem call_seven_args_out_of_bounds :
    visitExpr ⟨sevenProg, []⟩ callSeven exprStart =
      .error "vector index out of bounds" := by
  simp [sevenProg, callSeven, exprStart, visitExpr, visitExprList,
    visitIntConstant, visitVariable, visitBoolConstant, initGenState,
    bindG_apply, pureG_apply, fresh_pseudo, fresh_label, getState, modifyG,
    getIn, setIn, getFalse, setFalse, getResult, setResult, getAddress,
    setAddress, addOffset, throwG, addInstrG, add_sequential, intify,
    copy_of_result, vecGet, mapAt, forLoop, forLoopAux, Callable.add_instr,
    Callable.add_instr_run, Callable.init, get_pseudo, regargs, discard_pr]

set_option maxHeartbeats 4000000 in
/-- C2 (the code slip at its failing input): constructing the `RtlGen` for
the arity-8 procedure `g` aborts with an out-of-bounds vector access.  The
parameter loop runs `for (i = 6; i < nArgs + 1; i++)` emitting
`LoadParam(i - 5, input_regs[i])`, so after `LoadParam 1` for parameter 7
and `LoadParam 2` for parameter 8 its last iteration reads
`input_regs[8]` — one past the end of the eight-element vector — instead
of stopping, as the claim's "no other LoadParam is emitted" requires. -/
theorem rtlgen_arity8_loadparam_out_of_bounds :
    rtlGenRun ⟨arityEightProg, []⟩ "g" 0 0 =
      .error "vector index out of bounds" := by
  simp [arityEightProg, rtlGenRun, rtlGenBody, initGenState, bindG_apply,
    pureG_apply, fresh_pseudo, fresh_label, getState, modifyG, getIn, setIn,
    getFalse, setFalse, getResult, setResult, getAddress, setAddress,
    addOffset, throwG, addInstrG, add_sequential, intify, copy_of_result,
    vecGet, mapAt, forLoop, forLoopAux, forListM, mapListM,
    Callable.add_instr, Callable.add_instr_run, Callable.init, get_pseudo,
    regargs, callee_saved, pushInputReg, setOutputReg, setEnter, setLeave,
    discard_pr, source.sizeOf, source.Ty.isUNKNOWN]

set_option maxHeartbeats 4000000 in
/-- Lowering `proc main() {}` with the process-global counters at
`(lp, ll) = (0, 0)`: the first compilation's result.  The global-variable
table of the program plays no role in `transform`, so this holds for any
`gvs`. -/
theorem transform_main_first (gvs : List (String × source.GlobalVar)) :
    transform ⟨gvs, [("main", mainSrc)]⟩ [] 0 0 = .ok ([mainCbl1], 6, 17) := by
  simp [transform, transformList, rtlGenRun, rtlGenBody, mainSrc, mainCbl1,
    initGenState, bindG_apply, pureG_apply, fresh_pseudo, fresh_label,
    getState, modifyG, getIn, setIn, getFalse, setFalse, getResult,
    setResult, getAddress, setAddress, addOffset, throwG, addInstrG,
    add_sequential, intify, copy_of_result, vecGet, mapAt, forLoop,
    forLoopAux, forListM, mapListM, Callable.add_instr,
    Callable.add_instr_run, Callable.init, get_pseudo, regargs, callee_saved,
    pushInputReg, setOutputReg, setEnter, setLeave, discard_pr,
    source.sizeOf, source.Ty.isUNKNOWN, visitStmt, visitStmtList,
    amd64.rax, amd64.rbx, amd64.rcx, amd64.rdx, amd64.rbp, amd64.rsi,
    amd64.rdi, amd64.r8, amd64.r9, amd64.r12, amd64.r13, amd64.r14,
    amd64.r15, amd64.rip]

set_option maxHeartbeats 4000000 in
/-- Lowering `proc main() {}` again in the same process: the counters
resume at `(6, 17)` and every identifier shifts. -/
theorem transform_main_second (gvs : List (String × source.GlobalVar)) :
    transform ⟨gvs, [("main", mainSrc)]⟩ [] 6 17 = .ok ([mainCbl2], 12, 34) := by
  simp [transform, transformList, rtlGenRun, rtlGenBody, mainSrc, mainCbl2,
    initGenState, bindG_apply, pureG_apply, fresh_pseudo, fresh_label,
    getState, modifyG, getIn, setIn, getFalse, setFalse, getResult,
    setResult, getAddress, setAddress, addOffset, throwG, addInstrG,
    add_sequential, intify, copy_of_result, vecGet, mapAt, forLoop,
    forLoopAux, forListM, mapListM, Callable.add_instr,
    Callable.add_instr_run, Callable.init, get_pseudo, regargs, callee_saved,
    pushInputReg, setOutputReg, setEnter, setLeave, discard_pr,
    source.sizeOf, source.Ty.isUNKNOWN, visitStmt, visitStmtList,
    amd64.rax, amd64.rbx, amd64.rcx, amd64.rdx, amd64.rbp, amd64.rsi,
    amd64.rdi, amd64.r8, amd64.r9, amd64.r12, amd64.r13, amd64.r14,
    amd64.r15, amd64.rip]

set_option maxHeartbeats 4000000 in
/-- Counterexample to C4 as stated: compiling `proc main() {}` twice in
one process produces different `.rtl` bytes — the label and pseudo
identifiers of the second run are shifted, because the process-global
counters are never reset. -/
theorem compile_twice_rtl_differs :
    ∃ o1 d1 ps1 o2 d2 ps2,
      compileRtl emptyMainProg pipeInit = .ok (o1, d1, ps1) ∧
      compileRtl emptyMainProg ps1 = .ok (o2, d2, ps2) ∧
      o1 ≠ o2 := by
  have h1 := transform_main_first []
  have h2 := transform_main_second []
  refine ⟨rtlFileContent [] [mainCbl1], [],
    { last_pseudo := 6, last_label := 17, globals := ⟨[], [], 0⟩ },
    rtlFileContent [] [mainCbl2], [],
    { last_pseudo := 12, last_label := 34, globals := ⟨[], [], 0⟩ },
    ?_, ?_, ?_⟩
  · simp [compileRtl, emptyMainProg, getGlobals, getGlobalsList, pipeInit, h1]
  · simp [compileRtl, emptyMainProg, getGlobals, getGlobalsList, h2]
  · decide

/-- The amended C5: for a global variable of any of the handled types
(`INT64`, `BOOL`, `POINTER`, `LIST`) whose initializer is not a constant
literal (`getArg` returns `NULL`), `getGlobals` prints
`"Bad variable initialization for <name>"` and skips the variable —
neither `global_var_init` nor `global_var_offset` nor `globaloffset`
changes — and returns normally, so compilation continues. -/
theorem getGlobals_nonconst_diag_and_skip (gs : GlobalsState)
    (diags : List String) (name : String) (gv : source.GlobalVar)
    (h : source.getArg gv.init = none)
    (hty : (gv.ty.isINT64 || gv.ty.isBOOL || gv.ty.isPOINTER || gv.ty.isLIST)
      = true) :
    getGlobalsOne gs diags name gv =
      (gs, diags ++ ["Bad variable initialization for " ++ name]) := by
  cases hv : gv.ty <;>
    simp [hv, source.Ty.isINT64, source.Ty.isBOOL, source.Ty.isPOINTER,
      source.Ty.isLIST, source.Ty.isUNKNOWN] at hty ⊢ <;>
    simp [getGlobalsOne, getGlobalsInit, h, hv, source.Ty.isINT64,
      source.Ty.isBOOL, source.Ty.isPOINTER, source.Ty.isLIST,
      source.Ty.isUNKNOWN]

/-- Witness for the amended C5 at the concrete global `x = y : int64`. -/
theorem getGlobals_nonconst_diag_and_skip_witness :
    getGlobalsOne ⟨[], [], 0⟩ [] "x" ⟨"x", .INT64, .Variable "y" .INT64⟩ =
      (⟨[], [], 0⟩, ["Bad variable initialization for x"]) := by
  have h := getGlobals_nonconst_diag_and_skip ⟨[], [], 0⟩ [] "x"
    ⟨"x", .INT64, .Variable "y" .INT64⟩ rfl rfl
  simpa using h

set_option maxHeartbeats 4000000 in
/-- Counterexample to C5 as stated: on the program with the non-constant
global initializer `x = y`, the pipeline does *not* abort — it returns
normally with the diagnostic printed, `x` absent from `global_var_init`,
and a non-empty `.rtl` output for `main`. -/
theorem nonconst_global_init_continues :
    ∃ out diags ps,
      compileRtl badGlobalProg pipeInit = .ok (out, diags, ps) ∧
      diags = ["Bad variable initialization for x"] ∧
      ps.globals.global_var_init = [] ∧
      out ≠ "" := by
  have h1 := transform_main_first [("x", ⟨"x", .INT64, .Variable "y" .INT64⟩)]
  refine ⟨rtlFileContent [] [mainCbl1], ["Bad variable initialization for x"],
    { last_pseudo := 6, last_label := 17, globals := ⟨[], [], 0⟩ },
    ?_, rfl, rfl, ?_⟩
  · simp [compileRtl, badGlobalProg, getGlobals, getGlobalsList,
      getGlobalsOne, getGlobalsInit, source.getArg, source.Ty.isINT64,
      source.Ty.isBOOL, source.Ty.isPOINTER, source.Ty.isLIST, pipeInit, h1]
  · decide

/-! ### Monotonicity of the generator -/

/-- `pure` is monotone. -/
theorem mono_pure {α : Type} (a : α) : MonoStep (pure a : GenM α) := by
  intro s b s1 h
  rw [pureG_apply] at h
  cases h
  exact ⟨le_refl _, le_refl _, rfl⟩

/-- Bind preserves monotonicity. -/
theorem mono_bind {α β : Type} {m : GenM α} {f : α → GenM β}
    (hm : MonoStep m) (hf : ∀ a, MonoStep (f a)) : MonoStep (m >>= f) := by
  intro s b s2 h
  obtain ⟨a, s1, h1, h2⟩ := bindG_ok h
  obtain ⟨l1, p1, e1⟩ := hm s a s1 h1
  obtain ⟨l2, p2, e2⟩ := hf a s1 b s2 h2
  exact ⟨le_trans l1 l2, le_trans p1 p2, e2.trans e1⟩

/-- A conditional between two monotone computations is monotone. -/
theorem mono_ite {α : Type} (c : Prop) [Decidable c] {m m' : GenM α}
    (h : MonoStep m) (h' : MonoStep m') : MonoStep (if c then m else m') := by
  split
  · exact h
  · exact h'

/-- A state update that keeps the counters and `enter` is monotone. -/
theorem mono_modifyG (f : GenState → GenState)
    (hf : ∀ s, (f s).last_label = s.last_label ∧
      (f s).last_pseudo = s.last_pseudo ∧
      (f s).rtl_cbl.enter = s.rtl_cbl.enter) : MonoStep (modifyG f) := by
  intro s a s1 h
  cases h
  obtain ⟨hl, hp, he⟩ := hf s
  exact ⟨le_of_eq hl.symm, le_of_eq hp.symm, he⟩

/-- `fresh_pseudo` is monotone. -/
theorem mono_fresh_pseudo : MonoStep fresh_pseudo := by
  intro s a s1 h
  cases h
  exact ⟨le_refl _, by simp, rfl⟩

/-- `fresh_label` is monotone. -/
theorem mono_fresh_label : MonoStep fresh_label := by
  intro s a s1 h
  cases h
  exact ⟨by simp, le_refl _, rfl⟩

/-- `getState` is monotone. -/
theorem mono_getState : MonoStep getState := by
  intro s a s1 h
  cases h
  exact ⟨le_refl _, le_refl _, rfl⟩

/-- The field reads are monotone. -/
theorem mono_getIn : MonoStep getIn := by
  intro s a s1 h
  cases h
  exact ⟨le_refl _, le_refl _, rfl⟩

/-- `getFalse` is monotone. -/
theorem mono_getFalse : MonoStep getFalse := by
  intro s a s1 h
  cases h
  exact ⟨le_refl _, le_refl _, rfl⟩

/-- `getResult` is monotone. -/
theorem mono_getResult : MonoStep getResult := by
  intro s a s1 h
  cases h
  exact ⟨le_refl _, le_refl _, rfl⟩

/-- `getAddress` is monotone. -/
theorem mono_getAddress : MonoStep getAddress := by
  intro s a s1 h
  cases h
  exact ⟨le_refl _, le_refl _, rfl⟩

/-- The cursor/field writes are monotone. -/
theorem mono_setIn (l : Label) : MonoStep (setIn l) :=
  mono_modifyG _ (fun _ => ⟨rfl, rfl, rfl⟩)

/-- `setFalse` is monotone. -/
theorem mono_setFalse (l : Label) : MonoStep (setFalse l) :=
  mono_modifyG _ (fun _ => ⟨rfl, rfl, rfl⟩)

/-- `setResult` is monotone. -/
theorem mono_setResult (p : Pseudo) : MonoStep (setResult p) :=
  mono_modifyG _ (fun _ => ⟨rfl, rfl, rfl⟩)

/-- `setAddress` is monotone. -/
theorem mono_setAddress (p : Pseudo) : MonoStep (setAddress p) :=
  mono_modifyG _ (fun _ => ⟨rfl, rfl, rfl⟩)

/-- `addOffset` is monotone. -/
theorem mono_addOffset (n : Int) : MonoStep (addOffset n) :=
  mono_modifyG _ (fun _ => ⟨rfl, rfl, rfl⟩)

/-- `pushInputReg` is monotone. -/
theorem mono_pushInputReg (p : Pseudo) : MonoStep (pushInputReg p) :=
  mono_modifyG _ (fun _ => ⟨rfl, rfl, rfl⟩)

/-- `setOutputReg` is monotone. -/
theorem mono_setOutputReg (p : Pseudo) : MonoStep (setOutputReg p) :=
  mono_modifyG _ (fun _ => ⟨rfl, rfl, rfl⟩)

/-- `setLeave` is monotone. -/
theorem mono_setLeave (l : Label) : MonoStep (setLeave l) :=
  mono_modifyG _ (fun _ => ⟨rfl, rfl, rfl⟩)

/-- A failure is (vacuously) monotone. -/
theorem mono_throwG {α : Type} (msg : String) : MonoStep (throwG msg : GenM α) := by
  intro s a s1 h
  cases h

/-- `addInstrG` is monotone. -/
theorem mono_addInstrG (lab : Label) (i : Instr) : MonoStep (addInstrG lab i) := by
  intro s a s1 h
  obtain ⟨-, h2⟩ := addInstrG_ok h
  cases h2
  exact ⟨le_refl _, le_refl _, rfl⟩

/-- `add_sequential` is monotone. -/
theorem mono_add_sequential (mk : Label → Instr) : MonoStep (add_sequential mk) := by
  unfold add_sequential
  exact mono_bind mono_fresh_label fun next =>
    mono_bind mono_getIn fun inl =>
      mono_bind (mono_addInstrG inl (mk next)) fun _ => mono_setIn next

/-- `intify` is monotone. -/
theorem mono_intify : MonoStep intify := by
  unfold intify
  exact mono_bind mono_fresh_pseudo fun r =>
    mono_bind (mono_setResult r) fun _ =>
      mono_bind (mono_addOffset 8) fun _ =>
        mono_bind mono_fresh_label fun nl =>
          mono_bind mono_getIn fun inl =>
            mono_bind (mono_addInstrG inl _) fun _ =>
              mono_bind mono_getFalse fun fl =>
                mono_bind (mono_addInstrG fl _) fun _ => mono_setIn nl

/-- `copy_of_result` is monotone. -/
theorem mono_copy_of_result : MonoStep copy_of_result := by
  unfold copy_of_result
  exact mono_bind mono_fresh_pseudo fun reg =>
    mono_bind (mono_addOffset 8) fun _ =>
      mono_bind mono_getResult fun r =>
        mono_bind (mono_add_sequential _) fun _ => mono_pure reg

/-- `vecGet` is monotone. -/
theorem mono_vecGet {α : Type} (xs : List α) (i : Int) : MonoStep (vecGet xs i) := by
  unfold vecGet
  split
  · match xs.get? i.toNat with
    | some x => exact mono_pure x
    | none => exact mono_throwG _
  · exact mono_throwG _

/-- `mapAt` is monotone. -/
theorem mono_mapAt {β : Type} (m : List (String × β)) (k : String) :
    MonoStep (mapAt m k) := by
  unfold mapAt
  match m.lookup k with
  | some v => exact mono_pure v
  | none => exact mono_throwG _

/-- `forLoopAux` is monotone when its body is. -/
theorem mono_forLoopAux (f : Int → GenM Unit) (hf : ∀ i, MonoStep (f i)) :
    ∀ (n : Nat) (i : Int), MonoStep (forLoopAux f n i)
  | 0, i => by
      unfold forLoopAux
      exact mono_pure ()
  | n + 1, i => by
      unfold forLoopAux
      exact mono_bind (hf i) fun _ => mono_forLoopAux f hf n (i + 1)

/-- `forLoop` is monotone when its body is. -/
theorem mono_forLoop (lo hi : Int) (f : Int → GenM Unit)
    (hf : ∀ i, MonoStep (f i)) : MonoStep (forLoop lo hi f) :=
  mono_forLoopAux f hf _ lo

/-- `forListM` is monotone when its body is. -/
theorem mono_forListM {α : Type} (f : α → GenM Unit) (hf : ∀ x, MonoStep (f x)) :
    ∀ xs : List α, MonoStep (forListM xs f)
  | [] => by
      unfold forListM
      exact mono_pure ()
  | x :: rest => by
      unfold forListM
      exact mono_bind (hf x) fun _ => mono_forListM f hf rest

/-- `mapListM` is monotone when its body is. -/
theorem mono_mapListM {α β : Type} (f : α → GenM β) (hf : ∀ x, MonoStep (f x)) :
    ∀ xs : List α, MonoStep (mapListM xs f)
  | [] => by
      unfold mapListM
      exact mono_pure []
  | x :: rest => by
      unfold mapListM
      exact mono_bind (hf x) fun y =>
        mono_bind (mono_mapListM f hf rest) fun ys => mono_pure (y :: ys)

/-- `get_pseudo` is monotone. -/
theorem mono_get_pseudo (ctx : Ctx) (v : String) (offset : Int) :
    MonoStep (get_pseudo ctx v offset) := by
  unfold get_pseudo
  split
  · refine mono_bind mono_getState fun s => ?_
    refine mono_bind ?_ fun _ =>
      mono_bind mono_getState fun s2 => mono_mapAt _ _
    split
    · exact mono_bind mono_fresh_pseudo fun ps =>
        mono_bind (mono_addOffset offset) fun _ =>
          mono_bind (mono_add_sequential _) fun _ =>
            mono_modifyG _ (fun _ => ⟨rfl, rfl, rfl⟩)
    · exact mono_pure ()
  · refine mono_bind mono_getState fun s => ?_
    refine mono_bind ?_ fun _ =>
      mono_bind mono_getState fun s2 => mono_mapAt _ _
    split
    · exact mono_bind mono_fresh_pseudo fun p =>
        mono_bind (mono_modifyG _ (fun _ => ⟨rfl, rfl, rfl⟩)) fun _ =>
          mono_bind (mono_modifyG _ (fun _ => ⟨rfl, rfl, rfl⟩)) fun _ =>
            mono_addOffset offset
    · exact mono_pure ()

/-- `visitIntConstant` is monotone. -/
theorem mono_visitIntConstant (value : Int) : MonoStep (visitIntConstant value) := by
  unfold visitIntConstant
  exact mono_bind mono_fresh_pseudo fun r =>
    mono_bind (mono_setResult r) fun _ =>
      mono_bind (mono_addOffset 8) fun _ => mono_add_sequential _

/-- `visitBoolConstant` is monotone. -/
theorem mono_visitBoolConstant (value : Bool) : MonoStep (visitBoolConstant value) := by
  unfold visitBoolConstant
  split
  · exact mono_bind mono_fresh_label fun f => mono_setFalse f
  · exact mono_bind mono_getIn fun inl =>
      mono_bind (mono_setFalse inl) fun _ =>
        mono_bind mono_fresh_label fun f => mono_setIn f

/-- `visitVariable` is monotone. -/
theorem mono_visitVariable (ctx : Ctx) (label : String) (ty : source.Ty) :
    MonoStep (visitVariable ctx label ty) := by
  unfold visitVariable
  refine mono_bind (mono_get_pseudo ctx label _) fun p => ?_
  refine mono_bind (mono_setResult p) fun _ => ?_
  split
  · exact mono_bind mono_fresh_label fun f =>
      mono_bind (mono_setFalse f) fun _ =>
        mono_bind mono_getResult fun r => mono_add_sequential _
  · exact mono_pure ()

/-- `addMemset` is monotone. -/
theorem mono_addMemset (offset size : Int) : MonoStep (addMemset offset size) := by
  unfold addMemset
  exact mono_bind mono_fresh_pseudo fun poffset =>
    mono_bind (mono_addOffset 8) fun _ =>
      mono_bind (mono_add_sequential _) fun _ =>
        mono_bind (mono_visitIntConstant size) fun _ =>
          mono_bind mono_getResult fun psize =>
            mono_bind (mono_visitIntConstant 0) fun _ =>
              mono_bind mono_getResult fun pzero =>
                mono_bind (mono_add_sequential _) fun _ =>
                  mono_bind (mono_add_sequential _) fun _ =>
                    mono_bind (mono_add_sequential _) fun _ =>
                      mono_add_sequential _

mutual

/-- Lowering an expression is monotone: the counters only grow and
`rtl_cbl.enter` is untouched. -/
theorem mono_visitExpr (ctx : Ctx) (e : source.Expr) :
    MonoStep (visitExpr ctx e) := by
  cases e with
  | Variable label ty => exact mono_visitVariable ctx label ty
  | IntConstant value => exact mono_visitIntConstant value
  | BoolConstant value => exact mono_visitBoolConstant value
  | UnopApp op arg =>
      refine mono_bind (mono_visitExpr ctx arg) fun _ => ?_
      cases op with
      | BitNot =>
          exact mono_bind mono_copy_of_result fun reg =>
            mono_bind (mono_setResult reg) fun _ => mono_add_sequential _
      | Negate =>
          exact mono_bind mono_copy_of_result fun reg =>
            mono_bind (mono_setResult reg) fun _ => mono_add_sequential _
      | LogNot =>
          exact mono_bind mono_getFalse fun l =>
            mono_bind mono_getIn fun inl =>
              mono_bind (mono_setFalse inl) fun _ => mono_setIn l
  | BinopApp left_arg op right_arg =>
      refine mono_bind ?_ fun _ => mono_bind ?_ fun _ =>
        mono_bind ?_ fun _ => ?_
      · cases intBinopCode op with
        | none => exact mono_pure ()
        | some rtl_op =>
            exact mono_bind (mono_visitExpr ctx left_arg) fun _ =>
              mono_bind mono_copy_of_result fun left_result =>
                mono_bind (mono_visitExpr ctx right_arg) fun _ =>
                  mono_bind mono_getResult fun right_result =>
                    mono_bind (mono_add_sequential _) fun _ =>
                      mono_setResult left_result
      · refine mono_ite _ (mono_pure ()) ?_
        refine mono_bind (mono_visitExpr ctx left_arg) fun _ => ?_
        refine mono_bind mono_getState fun s1 => ?_
        refine mono_bind (mono_setIn _) fun _ => ?_
        refine mono_bind (mono_visitExpr ctx right_arg) fun _ => ?_
        refine mono_bind mono_getState fun s2 => ?_
        exact mono_ite _
          (mono_bind (mono_addInstrG _ _) fun _ => mono_setFalse _)
          (mono_bind (mono_addInstrG _ _) fun _ => mono_setIn _)
      · cases ineqCode op with
        | none => exact mono_pure ()
        | some rtl_op =>
            exact mono_bind (mono_visitExpr ctx left_arg) fun _ =>
              mono_bind mono_getResult fun left_result =>
                mono_bind (mono_visitExpr ctx right_arg) fun _ =>
                  mono_bind mono_getResult fun right_result =>
                    mono_bind mono_fresh_label fun f =>
                      mono_bind (mono_setFalse f) fun _ => mono_add_sequential _
      · refine mono_ite _ (mono_pure ()) ?_
        refine mono_bind (mono_visitExpr ctx left_arg) fun _ => ?_
        refine mono_bind (mono_ite _ mono_intify (mono_pure ())) fun _ => ?_
        refine mono_bind mono_getResult fun left_result => ?_
        refine mono_bind (mono_visitExpr ctx right_arg) fun _ => ?_
        refine mono_bind (mono_ite _ mono_intify (mono_pure ())) fun _ => ?_
        exact mono_bind mono_fresh_label fun f =>
          mono_bind (mono_setFalse f) fun _ =>
            mono_bind mono_getResult fun rres => mono_add_sequential _
  | Call func args =>
      refine mono_bind (mono_visitExprList ctx args) fun argPs => ?_
      refine mono_bind (mono_ite _ (mono_forLoop _ _ _ fun i =>
          mono_bind (mono_vecGet _ _) fun a =>
            mono_bind (mono_vecGet _ _) fun ra => mono_add_sequential _)
        (mono_bind (mono_forLoop _ _ _ fun i =>
            mono_bind (mono_vecGet _ _) fun a =>
              mono_bind (mono_vecGet _ _) fun ra => mono_add_sequential _)
          fun _ => mono_forLoop _ _ _ fun i =>
            mono_bind (mono_vecGet _ _) fun a => mono_add_sequential _))
        fun _ => ?_
      refine mono_bind ?_ fun cbl => ?_
      · cases ctx.source_prog.callables.lookup func with
        | some c => exact mono_pure c
        | none => exact mono_throwG _
      refine mono_bind (mono_ite _ (mono_setResult _)
        (mono_bind mono_fresh_pseudo fun p =>
          mono_bind (mono_setResult p) fun _ => mono_addOffset 8)) fun _ => ?_
      refine mono_bind (mono_add_sequential _) fun _ => ?_
      exact mono_ite _
        (mono_bind mono_getResult fun r => mono_add_sequential _)
        (mono_pure ())
  | Alloc size typ =>
      refine mono_bind (mono_visitIntConstant _) fun _ => ?_
      refine mono_bind mono_getResult fun scale => ?_
      refine mono_bind (mono_visitExpr ctx size) fun _ => ?_
      exact mono_bind mono_getResult fun length =>
        mono_bind (mono_add_sequential _) fun _ =>
          mono_bind (mono_add_sequential _) fun _ =>
            mono_bind (mono_add_sequential _) fun _ =>
              mono_bind mono_fresh_pseudo fun ps =>
                mono_bind (mono_addOffset 8) fun _ =>
                  mono_bind (mono_add_sequential _) fun _ => mono_setResult ps
  | Null => exact mono_visitIntConstant 0
  | Address src =>
      exact mono_bind (mono_visitAddress ctx src) fun _ =>
        mono_bind mono_getAddress fun a => mono_setResult a
  | ListElem lst idx =>
      refine mono_bind (mono_visitAddress ctx lst) fun _ => ?_
      refine mono_bind mono_getAddress fun lstaddress => ?_
      refine mono_bind (mono_visitExpr ctx idx) fun _ => ?_
      refine mono_bind mono_getResult fun idxp => ?_
      cases source.exprTy ctx.source_prog lst with
      | LIST typ len =>
          exact mono_bind (mono_visitIntConstant _) fun _ =>
            mono_bind mono_getResult fun scale =>
              mono_bind (mono_add_sequential _) fun _ =>
                mono_bind (mono_add_sequential _) fun _ =>
                  mono_bind mono_fresh_pseudo fun ps =>
                    mono_bind (mono_addOffset 8) fun _ =>
                      mono_bind (mono_add_sequential _) fun _ => mono_setResult ps
      | INT64 => exact mono_throwG _
      | BOOL => exact mono_throwG _
      | UNKNOWN => exact mono_throwG _
      | POINTER typ => exact mono_throwG _
  | Deref ptr =>
      exact mono_bind (mono_visitAddress ctx ptr) fun _ =>
        mono_bind mono_getAddress fun a =>
          mono_bind mono_fresh_pseudo fun ps =>
            mono_bind (mono_addOffset 8) fun _ =>
              mono_bind (mono_add_sequential _) fun _ => mono_setResult ps

/-- Lowering an argument list is monotone. -/
theorem mono_visitExprList (ctx : Ctx) (es : source.ExprList) :
    MonoStep (visitExprList ctx es) := by
  cases es with
  | nil => exact mono_pure []
  | cons e rest =>
      exact mono_bind (mono_visitExpr ctx e) fun _ =>
        mono_bind mono_getResult fun r =>
          mono_bind (mono_visitExprList ctx rest) fun rs => mono_pure (r :: rs)

/-- Lowering an address is monotone. -/
theorem mono_visitAddress (ctx : Ctx) (e : source.Expr) :
    MonoStep (visitAddress ctx e) := by
  cases e with
  | Variable label ty =>
      refine mono_bind (mono_ite _
        (mono_bind mono_fresh_pseudo fun ps =>
          mono_bind (mono_addOffset 8) fun _ =>
            mono_bind (mono_add_sequential _) fun _ => mono_setAddress ps)
        (mono_pure ())) fun _ => ?_
      refine mono_bind mono_getState fun s => ?_
      cases s.var_offset.lookup label with
      | some off =>
          exact mono_bind mono_fresh_pseudo fun ps =>
            mono_bind (mono_addOffset 8) fun _ =>
              mono_bind (mono_add_sequential _) fun _ => mono_setAddress ps
      | none => exact mono_pure ()
  | ListElem lst idx =>
      refine mono_bind (mono_visitAddress ctx lst) fun _ => ?_
      refine mono_bind mono_getAddress fun tmpaddr => ?_
      refine mono_bind (mono_visitExpr ctx idx) fun _ => ?_
      refine mono_bind mono_getResult fun tmpidx => ?_
      cases source.exprTy ctx.source_prog lst with
      | LIST typ len =>
          exact mono_bind (mono_visitIntConstant _) fun _ =>
            mono_bind mono_getResult fun r =>
              mono_bind (mono_add_sequential _) fun _ =>
                mono_bind (mono_add_sequential _) fun _ =>
                  mono_bind mono_fresh_pseudo fun ps =>
                    mono_bind (mono_addOffset 8) fun _ =>
                      mono_bind (mono_add_sequential _) fun _ => mono_setAddress ps
      | INT64 => exact mono_throwG _
      | BOOL => exact mono_throwG _
      | UNKNOWN => exact mono_throwG _
      | POINTER typ => exact mono_throwG _
  | Deref ptr =>
      exact mono_bind (mono_visitAddress ctx ptr) fun _ =>
        mono_bind mono_getAddress fun a =>
          mono_bind mono_fresh_pseudo fun ps =>
            mono_bind (mono_addOffset 8) fun _ =>
              mono_bind (mono_add_sequential _) fun _ => mono_setAddress ps
  | IntConstant value => exact mono_pure ()
  | BoolConstant value => exact mono_pure ()
  | UnopApp op arg => exact mono_pure ()
  | BinopApp l op r => exact mono_pure ()
  | Call func args => exact mono_pure ()
  | Alloc size typ => exact mono_pure ()
  | Null => exact mono_pure ()
  | Address src => exact mono_pure ()

end

mutual

/-- Lowering a statement is monotone: the counters only grow and
`rtl_cbl.enter` is untouched. -/
theorem mono_visitStmt (ctx : Ctx) (st : source.Stmt) :
    MonoStep (visitStmt ctx st) := by
  cases st with
  | Declare var ty init =>
      refine mono_bind (mono_ite _
        (mono_bind (mono_get_pseudo ctx var 8) fun pr =>
          mono_bind (mono_visitExpr ctx init) fun _ =>
            mono_bind mono_intify fun _ =>
              mono_bind mono_getResult fun r => mono_add_sequential _)
        (mono_pure ())) fun _ => ?_
      refine mono_bind (mono_ite _
        (mono_bind (mono_get_pseudo ctx var 8) fun pr =>
          mono_bind (mono_visitExpr ctx init) fun _ =>
            mono_bind mono_getResult fun r => mono_add_sequential _)
        (mono_pure ())) fun _ => ?_
      refine mono_bind (mono_ite _
        (mono_bind (mono_get_pseudo ctx var 8) fun pr =>
          mono_bind (mono_visitExpr ctx init) fun _ =>
            mono_bind mono_getResult fun r => mono_add_sequential _)
        (mono_pure ())) fun _ => ?_
      refine mono_ite _ ?_ (mono_pure ())
      refine mono_bind (mono_get_pseudo ctx var _) fun pr => ?_
      refine mono_bind mono_getState fun s => ?_
      refine mono_bind ?_ fun off => ?_
      · cases s.var_offset.lookup var with
        | some o => exact mono_pure o
        | none => exact mono_throwG _
      exact mono_bind (mono_addMemset _ _) fun _ =>
        mono_bind (mono_visitExpr ctx init) fun _ =>
          mono_bind mono_getResult fun r => mono_add_sequential _
  | Assign left right =>
      refine mono_bind (mono_visitAddress ctx left) fun _ => ?_
      refine mono_bind mono_getAddress fun source_reg => ?_
      refine mono_bind (mono_visitExpr ctx right) fun _ => ?_
      exact mono_bind (mono_ite _ mono_intify (mono_pure ())) fun _ =>
        mono_bind mono_getResult fun r => mono_add_sequential _
  | Eval expr =>
      exact mono_bind (mono_visitExpr ctx expr) fun _ =>
        mono_ite _ mono_intify (mono_pure ())
  | Print arg =>
      refine mono_bind (mono_visitExpr ctx arg) fun _ => ?_
      exact mono_bind (mono_ite _ mono_intify (mono_pure ())) fun _ =>
        mono_bind mono_getResult fun r =>
          mono_bind (mono_add_sequential _) fun _ => mono_add_sequential _
  | Block body => exact mono_visitStmtList ctx body
  | IfElse condition true_branch false_branch =>
      refine mono_bind (mono_visitExpr ctx condition) fun _ => ?_
      refine mono_bind mono_getState fun s => ?_
      refine mono_bind mono_fresh_label fun next_label => ?_
      refine mono_bind (mono_setIn _) fun _ => ?_
      refine mono_bind (mono_visitStmt ctx true_branch) fun _ => ?_
      refine mono_bind mono_getIn fun inl => ?_
      refine mono_bind (mono_addInstrG _ _) fun _ => ?_
      refine mono_bind (mono_setIn _) fun _ => ?_
      refine mono_bind (mono_visitStmt ctx false_branch) fun _ => ?_
      exact mono_bind mono_getIn fun inl2 =>
        mono_bind (mono_addInstrG _ _) fun _ => mono_setIn _
  | While condition loop_body =>
      refine mono_bind mono_getIn fun while_enter_label => ?_
      refine mono_bind (mono_visitExpr ctx condition) fun _ => ?_
      refine mono_bind mono_getFalse fun condition_exit_label => ?_
      refine mono_bind (mono_visitStmt ctx loop_body) fun _ => ?_
      exact mono_bind mono_getIn fun inl =>
        mono_bind (mono_addInstrG _ _) fun _ => mono_setIn _
  | Return arg =>
      refine mono_bind ?_ fun _ =>
        mono_bind mono_getState fun s3 => mono_add_sequential _
      cases arg with
      | some a =>
          refine mono_bind (mono_visitExpr ctx a) fun _ => ?_
          refine mono_bind (mono_ite _ mono_intify (mono_pure ())) fun _ => ?_
          refine mono_bind mono_getState fun s => ?_
          exact mono_ite _
            (mono_bind mono_getResult fun r =>
              mono_bind (mono_add_sequential _) fun _ =>
                mono_bind mono_getState fun s2 => mono_add_sequential _)
            (mono_pure ())
      | none => exact mono_pure ()

/-- Lowering a statement list is monotone. -/
theorem mono_visitStmtList (ctx : Ctx) (sts : source.StmtList) :
    MonoStep (visitStmtList ctx sts) := by
  cases sts with
  | nil => exact mono_pure ()
  | cons st rest =>
      exact mono_bind (mono_visitStmt ctx st) fun _ =>
        mono_visitStmtList ctx rest

end

/-- A successful `rtlGenBody` run places the `enter` label of the delivered
callable in the label-counter window of the run: at least the incoming
`last_label`, strictly below the outgoing one. -/
theorem rtlGenBody_enter_range {ctx : Ctx} {name : String} {s s' : GenState}
    (h : rtlGenBody ctx name s = .ok ((), s')) :
    s.last_label ≤ s'.rtl_cbl.enter ∧ s'.rtl_cbl.enter < s'.last_label := by
  unfold rtlGenBody at h
  obtain ⟨cbl, s1, h1, h⟩ := bindG_ok h
  obtain ⟨u2, s2, h2, h⟩ := bindG_ok h
  obtain ⟨u3, s3, h3, h⟩ := bindG_ok h
  obtain ⟨enter, s4, h4, h⟩ := bindG_ok h
  obtain ⟨u5, s5, h5, h⟩ := bindG_ok h
  have m1 : s.last_label ≤ s1.last_label := by
    cases hl : ctx.source_prog.callables.lookup name with
    | some c => rw [hl] at h1; cases h1; exact le_refl _
    | none => rw [hl] at h1; cases h1
  have m2 : s1.last_label ≤ s2.last_label ∧ s1.last_pseudo ≤ s2.last_pseudo ∧
      s2.rtl_cbl.enter = s1.rtl_cbl.enter := by
    refine (?_ : MonoStep _) s1 u2 s2 h2
    exact mono_forListM _ (fun param =>
      mono_bind (mono_get_pseudo ctx param.1 _) fun reg =>
        mono_pushInputReg reg) cbl.args
  have m3 : s2.last_label ≤ s3.last_label ∧ s2.last_pseudo ≤ s3.last_pseudo ∧
      s3.rtl_cbl.enter = s2.rtl_cbl.enter := by
    refine (?_ : MonoStep _) s2 u3 s3 h3
    exact mono_ite _ (mono_setOutputReg _)
      (mono_bind mono_fresh_pseudo fun p =>
        mono_bind (mono_setOutputReg p) fun _ => mono_addOffset 8)
  have ht : s5.last_label ≤ s'.last_label ∧ s5.last_pseudo ≤ s'.last_pseudo ∧
      s'.rtl_cbl.enter = s5.rtl_cbl.enter := by
    refine (?_ : MonoStep _) s5 u5 s' h
    refine mono_bind (mono_addOffset 8) fun _ => ?_
    refine mono_bind mono_fresh_label fun leave => ?_
    refine mono_bind (mono_setLeave leave) fun _ => ?_
    refine mono_bind (mono_addOffset 8) fun _ => ?_
    refine mono_bind (mono_setIn _) fun _ => ?_
    refine mono_bind mono_fresh_label fun freshL => ?_
    refine mono_bind (mono_addOffset 8) fun _ => ?_
    refine mono_bind mono_getIn fun tmpin => ?_
    refine mono_bind (mono_setIn _) fun _ => ?_
    refine mono_bind (mono_mapListM _ (fun reg =>
      mono_bind mono_fresh_pseudo fun ps =>
        mono_bind (mono_addOffset 8) fun _ =>
          mono_bind (mono_add_sequential _) fun _ => mono_pure ps)
      callee_saved) fun saved_locs => ?_
    refine mono_bind (mono_ite _ (mono_forLoop _ _ _ fun i =>
        mono_bind mono_getState fun t =>
          mono_bind (mono_vecGet _ _) fun ir =>
            mono_bind (mono_vecGet _ _) fun ra => mono_add_sequential _)
      (mono_bind (mono_forLoop _ _ _ fun i =>
          mono_bind mono_getState fun t =>
            mono_bind (mono_vecGet _ _) fun ir =>
              mono_bind (mono_vecGet _ _) fun ra => mono_add_sequential _)
        fun _ => mono_forLoop _ _ _ fun i =>
          mono_bind mono_getState fun t =>
            mono_bind (mono_vecGet _ _) fun ir => mono_add_sequential _))
      fun _ => ?_
    refine mono_bind (mono_visitStmt ctx cbl.body) fun _ => ?_
    refine mono_bind (mono_ite _
      (mono_bind mono_getState fun t => mono_add_sequential _)
      (mono_pure ())) fun _ => ?_
    refine mono_bind mono_getState fun t1 => ?_
    refine mono_bind (mono_addInstrG _ _) fun _ => ?_
    refine mono_bind (mono_forLoop _ _ _ fun i =>
      mono_bind (mono_vecGet _ _) fun sl =>
        mono_bind (mono_vecGet _ _) fun cs => mono_add_sequential _)
      fun _ => ?_
    refine mono_bind mono_getState fun t2 => ?_
    refine mono_bind (mono_addInstrG _ _) fun _ => ?_
    exact mono_bind (mono_add_sequential _) fun _ => mono_add_sequential _
  cases h4
  cases h5
  obtain ⟨l2, _, _⟩ := m2
  obtain ⟨l3, _, _⟩ := m3
  obtain ⟨la, _, ea⟩ := ht
  rw [ea]
  have l5 : s'.last_label ≥ s3.last_label + 1 := le_trans (le_of_eq rfl) la
  exact ⟨show s.last_label ≤ s3.last_label by omega,
    show s3.last_label < s'.last_label by omega⟩

/-- A successful `rtlGenRun` places the delivered callable's `enter` label
between the incoming and outgoing values of the label counter. -/
theorem rtlGenRun_enter_range {ctx : Ctx} {name : String} {lp ll : Int}
    {cb : Callable} {lp1 ll1 : Int}
    (h : rtlGenRun ctx name lp ll = .ok (cb, lp1, ll1)) :
    ll ≤ cb.enter ∧ cb.enter < ll1 := by
  unfold rtlGenRun at h
  cases hb : rtlGenBody ctx name (initGenState name lp ll) with
  | ok p =>
      obtain ⟨u, sf⟩ := p
      cases u
      rw [hb] at h
      cases h
      exact rtlGenBody_enter_range hb
  | error e => rw [hb] at h; cases h

/-- Every callable produced by one `transformList` pass has its `enter`
label inside the label-counter window of the pass. -/
theorem transformList_enter_bounds {ctx : Ctx}
    (lst : List (String × source.SCallable)) :
    ∀ {lp ll : Int} {cbs : List Callable} {lp2 ll2 : Int},
      transformList ctx lst lp ll = .ok (cbs, lp2, ll2) →
      ll ≤ ll2 ∧ ∀ cb ∈ cbs, ll ≤ cb.enter ∧ cb.enter < ll2 := by
  induction lst with
  | nil =>
      intro lp ll cbs lp2 ll2 h
      unfold transformList at h
      cases h
      exact ⟨le_refl _, by simp⟩
  | cons hd rest ih =>
      obtain ⟨nm, sc⟩ := hd
      intro lp ll cbs lp2 ll2 h
      unfold transformList at h
      cases hr : rtlGenRun ctx nm lp ll with
      | ok t =>
          obtain ⟨cb, lp1, ll1⟩ := t
          rw [hr] at h
          dsimp only at h
          cases ht : transformList ctx rest lp1 ll1 with
          | ok t2 =>
              obtain ⟨cbs1, lpf, llf⟩ := t2
              rw [ht] at h
              cases h
              obtain ⟨he1, he2⟩ := rtlGenRun_enter_range hr
              obtain ⟨hl, hall⟩ := ih ht
              refine ⟨le_trans (le_trans he1 (le_of_lt he2)) hl, ?_⟩
              intro c hc
              rcases List.mem_cons.mp hc with rfl | hmem
              · exact ⟨he1, lt_of_lt_of_le he2 hl⟩
              · obtain ⟨hc1, hc2⟩ := hall c hmem
                exact ⟨le_trans (le_trans he1 (le_of_lt he2)) hc1, hc2⟩
          | error e => rw [ht] at h; cases h
      | error e => rw [hr] at h; cases h

/-- `bodyKeys` distributes over append. -/
theorem bodyKeys_append (a b : List (Label × Instr)) :
    bodyKeys (a ++ b) = bodyKeys a ++ bodyKeys b := by
  simp [bodyKeys]

/-- A successful lookup result is a member of the association list. -/
theorem lookup_mem {body : List (Label × Instr)} {lab : Label} {i : Instr}
    (h : body.lookup lab = some i) : (lab, i) ∈ body := by
  induction body with
  | nil => cases h
  | cons p rest ih =>
      obtain ⟨l, j⟩ := p
      by_cases hl : lab = l
      · subst hl
        simp [List.lookup] at h
        simp [h]
      · have hbeq : (lab == l) = false := by simp [hl]
        simp only [List.lookup, hbeq] at h
        exact List.mem_cons_of_mem _ (ih h)

/-- What a successful `add_sequential` does to the state: it requires the
current `in_label` to be free, installs the instruction there with the
fresh label as successor, and moves `in_label` to the fresh label. -/
theorem add_sequential_ok {mk : Label → Instr} {s : GenState}
    {r : Unit × GenState} (h : add_sequential mk s = .ok r) :
    s.rtl_cbl.body.lookup s.in_label = none ∧
    r.2 = { s with
      last_label := s.last_label + 1
      in_label := s.last_label
      rtl_cbl := { s.rtl_cbl with
        schedule := s.rtl_cbl.schedule ++ [s.in_label]
        body := s.rtl_cbl.body ++ [(s.in_label, mk s.last_label)] } } := by
  unfold add_sequential at h
  obtain ⟨next, s1, h1, h⟩ := bindG_ok h
  cases h1
  obtain ⟨inl, s2, h2, h⟩ := bindG_ok h
  cases h2
  obtain ⟨u3, s3, h3, h⟩ := bindG_ok h
  obtain ⟨hnone, hs3⟩ := addInstrG_ok h3
  cases h
  subst hs3
  exact ⟨hnone, rfl⟩

/-- A step that leaves `body`, `in_label` and `last_label` unchanged
realises the int-mode contract. -/
theorem intout_of_eqs {s s' : GenState} (hg : GoodState s)
    (hb : s'.rtl_cbl.body = s.rtl_cbl.body) (hi : s'.in_label = s.in_label)
    (hl : s'.last_label = s.last_label) : IntOut s s' := by
  refine ⟨le_of_eq hl.symm, ⟨?_, ?_, ?_, ?_⟩, Or.inl hi, [], by simp [hb], ?_, ?_⟩
  · rw [hb, hl]; exact hg.keys_lt
  · rw [hb, hl]; exact hg.succ_lt
  · rw [hi, hl]; exact hg.in_lt
  · rw [hb, hi]; exact hg.in_free
  · intro p hp; cases hp
  · intro p hp; cases hp

/-- A window widens when the lower bound moves down. -/
theorem window_left {s1 s2 s3 : GenState} {l : Label}
    (hll : s1.last_label ≤ s2.last_label) (h : window s2 s3 l) :
    window s1 s3 l := ⟨le_trans hll h.lo, h.hi⟩

/-- A window widens when the upper bound moves up. -/
theorem window_right {s1 s2 s3 : GenState} {l : Label}
    (h : window s1 s2 l) (hll : s2.last_label ≤ s3.last_label) :
    window s1 s3 l := ⟨h.lo, lt_of_lt_of_le h.hi hll⟩

/-- Int-mode contracts compose. -/
theorem IntOut_trans {s1 s2 s3 : GenState} (a : IntOut s1 s2)
    (b : IntOut s2 s3) : IntOut s1 s3 := by
  have l12 := a.lab_le
  have l23 := b.lab_le
  refine ⟨le_trans l12 l23, b.good, ?_, ?_⟩
  · rcases b.in_out with h | h
    · rw [h]
      rcases a.in_out with h' | h'
      · exact Or.inl h'
      · exact Or.inr (window_right h' l23)
    · exact Or.inr (window_left l12 h)
  · obtain ⟨nwa, hba, hka, hta⟩ := a.grow
    obtain ⟨nwb, hbb, hkb, htb⟩ := b.grow
    refine ⟨nwa ++ nwb, by rw [hbb, hba, List.append_assoc], ?_, ?_⟩
    · intro p hp
      rcases List.mem_append.mp hp with hp | hp
      · rcases hka p hp with h | h
        · exact Or.inl h
        · exact Or.inr (window_right h l23)
      · rcases hkb p hp with h | h
        · rw [h]
          rcases a.in_out with h' | h'
          · exact Or.inl h'
          · exact Or.inr (window_right h' l23)
        · exact Or.inr (window_left l12 h)
    · intro p hp t ht
      rcases List.mem_append.mp hp with hp | hp
      · rcases hta p hp t ht with h | h | h
        · exact Or.inl h
        · rw [h]
          rcases a.in_out with h' | h'
          · exact Or.inl h'
          · exact Or.inr (Or.inr (window_right h' l23))
        · exact Or.inr (Or.inr (window_right h l23))
      · rcases htb p hp t ht with h | h | h
        · rw [h]
          rcases a.in_out with h' | h'
          · exact Or.inl h'
          · exact Or.inr (Or.inr (window_right h' l23))
        · exact Or.inr (Or.inl h)
        · exact Or.inr (Or.inr (window_left l12 h))

/-- `add_sequential` with a single-successor instruction realises the
int-mode contract. -/
theorem intout_add_sequential {mk : Label → Instr} {s : GenState}
    {r : Unit × GenState} (hg : GoodState s)
    (hs : ∀ l, Instr.succs (mk l) = [l])
    (h : add_sequential mk s = .ok r) : IntOut s r.2 := by
  obtain ⟨hnone, hr⟩ := add_sequential_ok h
  rw [hr]
  have hin := hg.in_lt
  refine ⟨by simp, ⟨?_, ?_, ?_, ?_⟩, ?_, ?_⟩
  · intro l hl
    replace hl : l ∈ bodyKeys (s.rtl_cbl.body ++ [(s.in_label, mk s.last_label)]) := hl
    rw [bodyKeys_append] at hl
    show l < s.last_label + 1
    rcases List.mem_append.mp hl with hl | hl
    · exact lt_trans (hg.keys_lt l hl) (lt_add_one _)
    · simp [bodyKeys] at hl
      rw [hl]
      exact lt_trans hin (lt_add_one _)
  · intro p hp t ht
    replace hp : p ∈ s.rtl_cbl.body ++ [(s.in_label, mk s.last_label)] := hp
    show t < s.last_label + 1
    rcases List.mem_append.mp hp with hp | hp
    · exact lt_trans (hg.succ_lt p hp t ht) (lt_add_one _)
    · simp at hp
      rw [hp, hs] at ht
      simp at ht
      rw [ht]
      exact lt_add_one _
  · show s.last_label < s.last_label + 1
    exact lt_add_one _
  · show s.last_label ∉ bodyKeys (s.rtl_cbl.body ++ [(s.in_label, mk s.last_label)])
    rw [bodyKeys_append]
    intro hmem
    rcases List.mem_append.mp hmem with hl | hl
    · exact absurd (hg.keys_lt _ hl) (lt_irrefl _)
    · simp [bodyKeys] at hl
      rw [hl] at hin
      exact absurd hin (lt_irrefl _)
  · exact Or.inr ⟨show s.last_label ≤ s.last_label from le_refl _,
      show s.last_label < s.last_label + 1 from lt_add_one _⟩
  · refine ⟨[(s.in_label, mk s.last_label)], rfl, ?_, ?_⟩
    · intro p hp
      simp at hp
      exact Or.inl (by rw [hp])
    · intro p hp t ht
      simp at hp
      rw [hp, hs] at ht
      simp at ht
      exact Or.inr (Or.inl (by simp [ht]))

/-- Strict bounds survive a counter increment. -/
theorem lt_add_one_of_lt {a b : Int} (h : a < b) : a < b + 1 :=
  lt_trans h (lt_add_one b)

/-- Loose bounds survive a counter increment. -/
theorem le_add_one_of_le {a b : Int} (h : a ≤ b) : a ≤ b + 1 :=
  le_trans h (le_of_lt (lt_add_one b))

/-- `pure` satisfies the int-mode contract. -/
theorem int_pure {α : Type} (a : α) : IntStep (pure a : GenM α) := by
  intro s b s' hg h
  rw [pureG_apply] at h
  cases h
  exact intout_of_eqs hg rfl rfl rfl

/-- Bind preserves the int-mode contract. -/
theorem int_bind {α β : Type} {m : GenM α} {f : α → GenM β}
    (hm : IntStep m) (hf : ∀ a, IntStep (f a)) : IntStep (m >>= f) := by
  intro s b s2 hg h
  obtain ⟨a, s1, h1, h2⟩ := bindG_ok h
  have o1 := hm s a s1 hg h1
  exact IntOut_trans o1 (hf a s1 b s2 o1.good h2)

/-- A state update preserving the body, `in_label` and the label counter
satisfies the int-mode contract. -/
theorem int_modifyG (f : GenState → GenState)
    (hf : ∀ s, (f s).rtl_cbl.body = s.rtl_cbl.body ∧
      (f s).in_label = s.in_label ∧ (f s).last_label = s.last_label) :
    IntStep (modifyG f) := by
  intro s a s' hg h
  cases h
  obtain ⟨h1, h2, h3⟩ := hf s
  exact intout_of_eqs hg h1 h2 h3

/-- Reading the state satisfies the int-mode contract. -/
theorem int_getState : IntStep getState := by
  intro s a s' hg h
  cases h
  exact intout_of_eqs hg rfl rfl rfl

/-- Reading `in_label` satisfies the int-mode contract. -/
theorem int_getIn : IntStep getIn := by
  intro s a s' hg h
  cases h
  exact intout_of_eqs hg rfl rfl rfl

/-- Reading `false_label` satisfies the int-mode contract. -/
theorem int_getFalse : IntStep getFalse := by
  intro s a s' hg h
  cases h
  exact intout_of_eqs hg rfl rfl rfl

/-- Reading `result` satisfies the int-mode contract. -/
theorem int_getResult : IntStep getResult := by
  intro s a s' hg h
  cases h
  exact intout_of_eqs hg rfl rfl rfl

/-- Reading `address` satisfies the int-mode contract. -/
theorem int_getAddress : IntStep getAddress := by
  intro s a s' hg h
  cases h
  exact intout_of_eqs hg rfl rfl rfl

/-- `setResult` satisfies the int-mode contract. -/
theorem int_setResult (p : Pseudo) : IntStep (setResult p) :=
  int_modifyG _ fun _ => ⟨rfl, rfl, rfl⟩

/-- `setAddress` satisfies the int-mode contract. -/
theorem int_setAddress (p : Pseudo) : IntStep (setAddress p) :=
  int_modifyG _ fun _ => ⟨rfl, rfl, rfl⟩

/-- `setFalse` satisfies the int-mode contract (it does not touch the body
or the true continuation). -/
theorem int_setFalse (l : Label) : IntStep (setFalse l) :=
  int_modifyG _ fun _ => ⟨rfl, rfl, rfl⟩

/-- `addOffset` satisfies the int-mode contract. -/
theorem int_addOffset (n : Int) : IntStep (addOffset n) :=
  int_modifyG _ fun _ => ⟨rfl, rfl, rfl⟩

/-- `fresh_pseudo` satisfies the int-mode contract. -/
theorem int_fresh_pseudo : IntStep fresh_pseudo := by
  intro s a s' hg h
  cases h
  exact intout_of_eqs hg rfl rfl rfl

/-- `fresh_label` satisfies the int-mode contract: it only enlarges the
window. -/
theorem int_fresh_label : IntStep fresh_label := by
  intro s a s' hg h
  cases h
  refine ⟨le_of_lt (lt_add_one _),
    ⟨?_, ?_, lt_add_one_of_lt hg.in_lt, hg.in_free⟩, Or.inl rfl,
    [], by simp, ?_, ?_⟩
  · exact fun l hl => lt_add_one_of_lt (hg.keys_lt l hl)
  · exact fun p hp t ht => lt_add_one_of_lt (hg.succ_lt p hp t ht)
  · intro p hp; cases hp
  · intro p hp; cases hp

/-- `throwG` never succeeds, hence satisfies the contract vacuously. -/
theorem int_throwG {α : Type} (msg : String) : IntStep (throwG msg : GenM α) := by
  intro s a s' hg h
  cases h

/-- `mapAt` satisfies the int-mode contract. -/
theorem int_mapAt {β : Type} (m : List (String × β)) (k : String) :
    IntStep (mapAt m k) := by
  intro s a s' hg h
  unfold mapAt at h
  cases hv : m.lookup k with
  | some v =>
      rw [hv] at h
      cases h
      exact intout_of_eqs hg rfl rfl rfl
  | none => rw [hv] at h; cases h

/-- `vecGet` satisfies the int-mode contract. -/
theorem int_vecGet {α : Type} (xs : List α) (i : Int) :
    IntStep (vecGet xs i) := by
  intro s a s' hg h
  unfold vecGet at h
  by_cases hi : 0 ≤ i
  · rw [if_pos hi] at h
    cases hx : xs.get? i.toNat with
    | some x =>
        rw [hx] at h
        cases h
        exact intout_of_eqs hg rfl rfl rfl
    | none => rw [hx] at h; cases h
  · rw [if_neg hi] at h
    cases h

/-- `add_sequential` with a single-successor instruction satisfies the
int-mode contract. -/
theorem int_add_sequential (mk : Label → Instr)
    (hs : ∀ l, Instr.succs (mk l) = [l]) : IntStep (add_sequential mk) := by
  intro s a s' hg h
  exact intout_add_sequential hg hs (r := ((), s')) h

/-- `get_pseudo` satisfies the int-mode contract. -/
theorem int_get_pseudo (ctx : Ctx) (v : String) (offset : Int) :
    IntStep (get_pseudo ctx v offset) := by
  unfold get_pseudo
  by_cases hc : (ctx.global_var_init.lookup v).isSome = true
  · rw [if_pos hc]
    refine int_bind int_getState fun s => ?_
    refine int_bind ?_ fun _ =>
      int_bind int_getState fun s2 => int_mapAt _ _
    by_cases hn : (s.gvar_table.lookup v).isNone = true
    · rw [if_pos hn]
      exact int_bind int_fresh_pseudo fun ps =>
        int_bind (int_addOffset offset) fun _ =>
          int_bind (int_add_sequential _ fun l => rfl) fun _ =>
            int_modifyG _ (fun _ => ⟨rfl, rfl, rfl⟩)
    · rw [if_neg hn]
      exact int_pure ()
  · rw [if_neg hc]
    refine int_bind int_getState fun s => ?_
    refine int_bind ?_ fun _ =>
      int_bind int_getState fun s2 => int_mapAt _ _
    by_cases hn : (s.var_table.lookup v).isNone = true
    · rw [if_pos hn]
      exact int_bind int_fresh_pseudo fun p =>
        int_bind (int_modifyG _ (fun _ => ⟨rfl, rfl, rfl⟩)) fun _ =>
          int_bind (int_modifyG _ (fun _ => ⟨rfl, rfl, rfl⟩)) fun _ =>
            int_addOffset offset
    · rw [if_neg hn]
      exact int_pure ()

/-- `copy_of_result` satisfies the int-mode contract. -/
theorem int_copy_of_result : IntStep copy_of_result := by
  unfold copy_of_result
  refine int_bind int_fresh_pseudo fun reg => ?_
  refine int_bind (int_addOffset 8) fun _ => ?_
  refine int_bind int_getResult fun r => ?_
  exact int_bind (int_add_sequential _ fun l => rfl) fun _ => int_pure reg

/-- `visitIntConstant` satisfies the int-mode contract. -/
theorem int_visitIntConstant (value : Int) :
    IntStep (visitIntConstant value) := by
  unfold visitIntConstant
  refine int_bind int_fresh_pseudo fun r => ?_
  refine int_bind (int_setResult r) fun _ => ?_
  exact int_bind (int_addOffset 8) fun _ => int_add_sequential _ fun l => rfl

/-- The false exit of a bool-mode run is below the final counter. -/
theorem boolout_false_lt {s s' : GenState} (hg : GoodState s)
    (hb : BoolOut s s') : s'.false_label < s'.last_label := by
  rcases hb.false_out with h | h
  · rw [h]
    exact lt_of_lt_of_le hg.in_lt hb.lab_le
  · exact h.hi

/-- Appending a conditional branch to an int-mode prefix produces a
bool-mode run: the branch is installed at the prefix's `in_label`, its
true successor is the second fresh label (the new `in_label`) and its
false successor the first fresh label (the new `false_label`). -/
theorem boolout_branch {s sM : GenState} (hg : GoodState s) (hio : IntOut s sM)
    (mk : Label → Instr)
    (hs2 : ∀ l, Instr.succs (mk l) = [l, sM.last_label]) :
    BoolOut s { sM with
      last_label := sM.last_label + 1 + 1
      in_label := sM.last_label + 1
      false_label := sM.last_label
      rtl_cbl := { sM.rtl_cbl with
        schedule := sM.rtl_cbl.schedule ++ [sM.in_label]
        body := sM.rtl_cbl.body ++ [(sM.in_label, mk (sM.last_label + 1))] } } := by
  have hgM := hio.good
  refine ⟨le_add_one_of_le (le_add_one_of_le hio.lab_le),
    ⟨?_, ?_, ?_, ?_⟩, ?_, ?_, ?_, ?_, ?_⟩
  · intro l hl
    replace hl : l ∈ bodyKeys (sM.rtl_cbl.body ++ [(sM.in_label, mk (sM.last_label + 1))]) := hl
    rw [bodyKeys_append] at hl
    show l < sM.last_label + 1 + 1
    rcases List.mem_append.mp hl with hl | hl
    · exact lt_add_one_of_lt (lt_add_one_of_lt (hgM.keys_lt l hl))
    · simp [bodyKeys] at hl
      rw [hl]
      exact lt_add_one_of_lt (lt_add_one_of_lt hgM.in_lt)
  · intro p hp t ht
    replace hp : p ∈ sM.rtl_cbl.body ++ [(sM.in_label, mk (sM.last_label + 1))] := hp
    show t < sM.last_label + 1 + 1
    rcases List.mem_append.mp hp with hp | hp
    · exact lt_add_one_of_lt (lt_add_one_of_lt (hgM.succ_lt p hp t ht))
    · simp at hp
      rw [hp, hs2] at ht
      simp at ht
      rcases ht with ht | ht
      · rw [ht]; exact lt_add_one _
      · rw [ht]; exact lt_add_one_of_lt (lt_add_one _)
  · exact lt_add_one _
  · show sM.last_label + 1 ∉
      bodyKeys (sM.rtl_cbl.body ++ [(sM.in_label, mk (sM.last_label + 1))])
    rw [bodyKeys_append]
    intro hmem
    rcases List.mem_append.mp hmem with hl | hl
    · exact absurd (hgM.keys_lt _ hl)
        (not_lt_of_ge (le_of_lt (lt_add_one _)))
    · simp [bodyKeys] at hl
      exact absurd hgM.in_lt (by rw [← hl]; exact not_lt_of_ge (le_of_lt (lt_add_one _)))
  · exact Or.inr ⟨le_trans hio.lab_le (le_of_lt (lt_add_one _)), lt_add_one _⟩
  · exact Or.inr ⟨hio.lab_le, lt_add_one_of_lt (lt_add_one _)⟩
  · exact ne_of_gt (lt_add_one _)
  · show sM.last_label ∉
      bodyKeys (sM.rtl_cbl.body ++ [(sM.in_label, mk (sM.last_label + 1))])
    rw [bodyKeys_append]
    intro hmem
    rcases List.mem_append.mp hmem with hl | hl
    · exact absurd (hgM.keys_lt _ hl) (lt_irrefl _)
    · simp [bodyKeys] at hl
      have hin := hgM.in_lt
      rw [hl] at hin
      exact absurd hin (lt_irrefl _)
  · obtain ⟨nw, hb, hk, ht⟩ := hio.grow
    refine ⟨nw ++ [(sM.in_label, mk (sM.last_label + 1))], ?_, ?_, ?_⟩
    · show sM.rtl_cbl.body ++ [(sM.in_label, mk (sM.last_label + 1))] = _
      rw [hb, List.append_assoc]
    · intro p hp
      rcases List.mem_append.mp hp with hp | hp
      · rcases hk p hp with h | h
        · exact Or.inl h
        · exact Or.inr ⟨h.lo, lt_add_one_of_lt (lt_add_one_of_lt h.hi)⟩
      · simp at hp
        rw [hp]
        rcases hio.in_out with h | h
        · exact Or.inl h
        · exact Or.inr ⟨h.lo, lt_add_one_of_lt (lt_add_one_of_lt h.hi)⟩
    · intro p hp t htm
      rcases List.mem_append.mp hp with hp | hp
      · rcases ht p hp t htm with h | h | h
        · exact Or.inl h
        · rw [h]
          rcases hio.in_out with h' | h'
          · exact Or.inl h'
          · exact Or.inr (Or.inr (Or.inr
              ⟨h'.lo, lt_add_one_of_lt (lt_add_one_of_lt h'.hi)⟩))
        · exact Or.inr (Or.inr (Or.inr
            ⟨h.lo, lt_add_one_of_lt (lt_add_one_of_lt h.hi)⟩))
      · simp at hp
        rw [hp, hs2] at htm
        simp at htm
        rcases htm with htm | htm
        · exact Or.inr (Or.inl (by rw [htm]))
        · exact Or.inr (Or.inr (Or.inl (by rw [htm])))

/-- Swapping the true and false continuations (the `LogNot` lowering)
preserves the bool-mode contract. -/
theorem boolout_not {s s1 : GenState} (hg : GoodState s) (h1 : BoolOut s s1) :
    BoolOut s { s1 with
      in_label := s1.false_label
      false_label := s1.in_label } := by
  refine ⟨h1.lab_le, ⟨h1.good.keys_lt, h1.good.succ_lt,
      boolout_false_lt hg h1, h1.false_free⟩, ?_, ?_, ?_, h1.good.in_free, ?_⟩
  · rcases h1.false_out with h | h
    · exact Or.inl h
    · exact Or.inr ⟨h.lo, h.hi⟩
  · rcases h1.in_out with h | h
    · exact Or.inl h
    · exact Or.inr ⟨h.lo, h.hi⟩
  · exact Ne.symm h1.ne_out
  · obtain ⟨nw, hb, hk, ht⟩ := h1.grow
    refine ⟨nw, hb, ?_, ?_⟩
    · intro p hp
      rcases hk p hp with h | h
      · exact Or.inl h
      · exact Or.inr ⟨h.lo, h.hi⟩
    · intro p hp t htm
      rcases ht p hp t htm with h | h | h | h
      · exact Or.inl h
      · exact Or.inr (Or.inr (Or.inl h))
      · exact Or.inr (Or.inl h)
      · exact Or.inr (Or.inr (Or.inr ⟨h.lo, h.hi⟩))

/-- C4 (amended): the label identifiers of the second compilation are *not*
the same as those of the first.  Since `last_label` is a process-global
counter that `rtl::transform` never resets, rerunning `transform` on the
same source program from the counter values left by a first run gives every
callable an `enter` label strictly greater than the `enter` label of the
corresponding callable of the first run. -/
theorem transform_rerun_shifts_enter_labels
    (prog : source.Program) (gv1 gv2 : List (String × Int))
    (lp0 ll0 lp1 ll1 lp2 ll2 : Int)
    (cbs1 cbs2 : List Callable)
    (h1 : transform prog gv1 lp0 ll0 = .ok (cbs1, lp1, ll1))
    (h2 : transform prog gv2 lp1 ll1 = .ok (cbs2, lp2, ll2))
    (k : Nat) (hk1 : k < cbs1.length) (hk2 : k < cbs2.length) :
    (cbs1.get ⟨k, hk1⟩).enter < (cbs2.get ⟨k, hk2⟩).enter := by
  unfold transform at h1 h2
  obtain ⟨_, hall1⟩ := transformList_enter_bounds _ h1
  obtain ⟨_, hall2⟩ := transformList_enter_bounds _ h2
  obtain ⟨_, hb1⟩ := hall1 _ (List.get_mem cbs1 k hk1)
  obtain ⟨hb2, _⟩ := hall2 _ (List.get_mem cbs2 k hk2)
  exact lt_of_lt_of_le hb1 hb2

theorem transform_rerun_shifts_enter_labels_witness :
    transform emptyMainProg [] 0 0 = .ok ([mainCbl1], 6, 17) ∧
    transform emptyMainProg [] 6 17 = .ok ([mainCbl2], 12, 34) ∧
    ([mainCbl1].get ⟨0, by decide⟩).enter < ([mainCbl2].get ⟨0, by decide⟩).enter :=
  ⟨transform_main_first [], transform_main_second [],
    transform_rerun_shifts_enter_labels emptyMainProg [] [] 0 0 6 17 12 34
      [mainCbl1] [mainCbl2] (transform_main_first []) (transform_main_second [])
      0 (by decide) (by decide)⟩

end rtl

end bx
